import Mathlib

/-!
# Subscription server (package `sub`): shallow embedding and verified properties

The development embeds `sub/subController.go` (the request handlers `subs`,
`ApplyCommonHeaders`) and `sub/sub.go` (`Server.initRouter`, `Server.Start`,
`Server.Stop`) as pure Lean functions.

* Go `string` values are byte sequences: `GoString := List (Fin 256)`.
* The HTTP response writer is an explicit record (status, header map, body).
* Calls into collaborators that are not part of the two files (the subscription
  data service, the template engine, the JSON decoder, the setting service, the
  network stack) are taken as parameters, so every theorem holds for every
  behaviour of these collaborators.
* Side effects of `Start` and `Stop` are recorded in an event trace; a call ends by
  returning a value, returning an error, or panicking (gin's route registration).
-/

namespace Sub

/-! ## Go strings -/

/-- A byte. -/
abbrev Byte := Fin 256

/-- A Go `string`: an immutable sequence of bytes. -/
abbrev GoString := List Byte

/-- The Go string denoted by a source literal: the UTF-8 bytes of its characters. -/
def lit (s : String) : GoString :=
  (s.toList.flatMap String.utf8EncodeChar).map (fun u => Fin.ofNat u.toNat)

/-- Go `strings.HasSuffix`. -/
def HasSuffix (s suffix : GoString) : Bool :=
  decide (suffix.length ≤ s.length) && (s.drop (s.length - suffix.length) == suffix)

/-- Go `strings.HasPrefix`. -/
def HasPrefix (s pre : GoString) : Bool :=
  s.take pre.length == pre

/-- Go `strings.Contains`: `substr` occurs in `s` at some offset. -/
def Contains : GoString → GoString → Bool
  | [], substr => substr == []
  | c :: cs, substr => HasPrefix (c :: cs) substr || Contains cs substr

/-- Lower-casing of one ASCII byte (`'A'..'Z'` to `'a'..'z'`). -/
def lowerByte (c : Byte) : Byte :=
  if 65 ≤ c.val ∧ c.val ≤ 90 then Fin.ofNat (c.val + 32) else c

/-- Go `strings.ToLower`, on the ASCII letters. On input with non-ASCII runes Go also
maps those runes; no rune outside ASCII lower-cases to a byte of `text/html`, so the
test `Contains (ToLower accept) "text/html"` of `subs` is not affected. -/
def ToLower (s : GoString) : GoString := s.map lowerByte

/-- Go `strings.EqualFold` against an ASCII word without `k` or `s` (the only letters
with a non-ASCII simple fold): equality of the lower-cased bytes. -/
def EqualFold (s t : GoString) : Bool := ToLower s == ToLower t

/-- Drops every trailing byte that satisfies `p` (the loop of `strings.TrimRight`,
scanning from the end). -/
def trimRightWhile (p : Byte → Bool) : GoString → GoString
  | [] => []
  | c :: cs =>
    match trimRightWhile p cs with
    | [] => if p c then [] else [c]
    | r => c :: r

/-- Go `strings.TrimRight s cutset`: `s` without all trailing bytes contained in
`cutset` (for an ASCII cutset, as here, runes are bytes). -/
def TrimRight (s cutset : GoString) : GoString :=
  trimRightWhile (fun c => cutset.contains c) s

/-! ## `encoding/base64`, `StdEncoding` -/

/-- The alphabet of `base64.StdEncoding` (`encodeStd`). -/
def encodeStd : GoString :=
  lit "ABCDEFGHIJKLMNOPQRSTUVWXYZabcdefghijklmnopqrstuvwxyz0123456789+/"

/-- The padding character `StdPadding`. -/
def padChar : Byte := 61

/-- The table lookup `enc.encode[v & 0x3F]`. -/
def encodeByte (v : Nat) : Byte := encodeStd.getD (v % 64) 0

/-- Go `base64.StdEncoding.EncodeToString`: every 3 input bytes form a 24-bit value
`b0<<16 | b1<<8 | b2` written as 4 alphabet characters; a remainder of 1 or 2 bytes is
written as 2 or 3 characters followed by padding up to 4. Shifts and masks are written
as division and remainder by powers of two. -/
def EncodeToString : GoString → GoString
  | b0 :: b1 :: b2 :: rest =>
    let val := b0.val * 65536 + b1.val * 256 + b2.val
    encodeByte (val / 262144) :: encodeByte (val / 4096) :: encodeByte (val / 64)
      :: encodeByte val :: EncodeToString rest
  | [b0, b1] =>
    let val := b0.val * 65536 + b1.val * 256
    [encodeByte (val / 262144), encodeByte (val / 4096), encodeByte (val / 64), padChar]
  | [b0] =>
    let val := b0.val * 65536
    [encodeByte (val / 262144), encodeByte (val / 4096), padChar, padChar]
  | [] => []

/-- The table `enc.decodeMap` of `StdEncoding`: the 6-bit value of an alphabet
character, `none` (0xff in Go) for every other byte. -/
def decodeMap (c : Byte) : Option Nat :=
  if 65 ≤ c.val ∧ c.val ≤ 90 then some (c.val - 65)
  else if 97 ≤ c.val ∧ c.val ≤ 122 then some (c.val - 97 + 26)
  else if 48 ≤ c.val ∧ c.val ≤ 57 then some (c.val - 48 + 52)
  else if c.val = 43 then some 62
  else if c.val = 47 then some 63
  else none

/-- The three bytes of the 24-bit value `s0<<18 | s1<<12 | s2<<6 | s3`. -/
def quantumBytes (s0 s1 s2 s3 : Nat) : Nat :=
  s0 * 262144 + s1 * 4096 + s2 * 64 + s3

/-- Decoding of a newline-free text by quanta of 4 characters (Go `decodeQuantum`,
non-strict): padding is accepted only to complete the last quantum (`xx==` or `xxx=`),
every other byte outside the alphabet and every incomplete quantum is an error. -/
def decodeQuanta : GoString → Option GoString
  | c0 :: c1 :: c2 :: c3 :: rest =>
    match decodeMap c0, decodeMap c1 with
    | some s0, some s1 =>
      match decodeMap c2 with
      | some s2 =>
        match decodeMap c3 with
        | some s3 =>
          let val := quantumBytes s0 s1 s2 s3
          (decodeQuanta rest).map (fun out =>
            Fin.ofNat (val / 65536) :: Fin.ofNat (val / 256) :: Fin.ofNat val :: out)
        | none =>
          let val := quantumBytes s0 s1 s2 0
          if c3 = padChar ∧ rest = [] then
            some [Fin.ofNat (val / 65536), Fin.ofNat (val / 256)]
          else none
      | none =>
        let val := quantumBytes s0 s1 0 0
        if c2 = padChar ∧ c3 = padChar ∧ rest = [] then some [Fin.ofNat (val / 65536)]
        else none
    | _, _ => none
  | [] => some []
  | _ => none

/-- Go `base64.StdEncoding.DecodeString`: carriage returns and line feeds are ignored
wherever they stand, the remaining text is decoded by quanta; `none` is
`CorruptInputError`. -/
def DecodeString (s : GoString) : Option GoString :=
  decodeQuanta (s.filter (fun c => !(c == 10 || c == 13)))

/-! ## `net/http` headers and the gin response writer -/

/-- The predicate `validHeaderFieldByte` of `net/textproto`: the token characters of
RFC 7230, that is letters, digits and the punctuation of the list. -/
def validHeaderFieldByte (c : Byte) : Bool :=
  decide (48 ≤ c.val ∧ c.val ≤ 57) || decide (65 ≤ c.val ∧ c.val ≤ 90)
    || decide (97 ≤ c.val ∧ c.val ≤ 122) || (lit "!#$%&'*+-.^_|~" ++ [96]).contains c

/-- The rewriting loop of `canonicalMIMEHeaderKey`: a letter is upper-cased at the
start and after each `-`, lower-cased elsewhere. -/
def canonicalCase (upper : Bool) : GoString → GoString
  | [] => []
  | c :: cs =>
    let c1 : Byte :=
      if upper && decide (97 ≤ c.val ∧ c.val ≤ 122) then Fin.ofNat (c.val - 32)
      else if !upper && decide (65 ≤ c.val ∧ c.val ≤ 90) then Fin.ofNat (c.val + 32)
      else c
    c1 :: canonicalCase (c1 == 45) cs

/-- Go `textproto.CanonicalMIMEHeaderKey`: a key made of valid header field bytes only
is put in canonical case, every other key (one with a space or an invalid byte) is
returned unchanged. -/
def CanonicalMIMEHeaderKey (s : GoString) : GoString :=
  if s.all validHeaderFieldByte then canonicalCase true s else s

/-- Go `http.Header`, a `map[string][]string`, as an association list with at most the
first binding of a key in force. -/
abbrev Header := List (GoString × List GoString)

/-- The map read `h[key]` (no canonicalisation), `[]` for an absent key. -/
def Header.index (h : Header) (key : GoString) : List GoString :=
  (h.lookup key).getD []

/-- The map write `h[key] = values` (no canonicalisation). -/
def Header.assign (h : Header) (key : GoString) (values : List GoString) : Header :=
  (key, values) :: h.filter (fun p => !(p.1 == key))

/-- Go `Header.Set`: `h[CanonicalMIMEHeaderKey(key)] = []string{value}`. -/
def Header.Set (h : Header) (key value : GoString) : Header :=
  h.assign (CanonicalMIMEHeaderKey key) [value]

/-- Go `Header.Get`: the first value stored under the canonical form of `key`, the
empty string when there is none. -/
def Header.Get (h : Header) (key : GoString) : GoString :=
  (h.index (CanonicalMIMEHeaderKey key)).headD []

/-- The gin `responseWriter`: the header map, the status code, whether the header has
been written (`size != noWritten`) and the body bytes written so far. -/
structure ResponseWriter where
  header : Header
  status : Nat
  written : Bool
  body : GoString
deriving DecidableEq, Repr

/-- The writer a handler chain starts with (`responseWriter.reset`): status
`defaultStatus = 200`, nothing written; `h` is the header map at that moment. -/
def ResponseWriter.reset (h : Header) : ResponseWriter :=
  { header := h, status := 200, written := false, body := [] }

/-- The gin `responseWriter.WriteHeader`: the status changes only while nothing is
written. -/
def ResponseWriter.WriteHeader (w : ResponseWriter) (code : Nat) : ResponseWriter :=
  if code > 0 ∧ w.status ≠ code then
    if w.written then w else { w with status := code }
  else w

/-- The gin `responseWriter.Write`: the header is committed, the data appended. -/
def ResponseWriter.Write (w : ResponseWriter) (data : GoString) : ResponseWriter :=
  { w with written := true, body := w.body ++ data }

/-- A sequence of `Write` calls. -/
def ResponseWriter.WriteAll (w : ResponseWriter) (chunks : List GoString) : ResponseWriter :=
  chunks.foldl ResponseWriter.Write w

/-- The gin `bodyAllowedForStatus`. -/
def bodyAllowedForStatus (status : Nat) : Bool :=
  !(decide (100 ≤ status ∧ status ≤ 199) || status == 204 || status == 304)

/-- The gin `writeContentType`: sets `Content-Type` unless one is present. -/
def writeContentType (w : ResponseWriter) (value : List GoString) : ResponseWriter :=
  if (w.header.index (lit "Content-Type")).length == 0 then
    { w with header := w.header.assign (lit "Content-Type") value }
  else w

/-- The gin `Context.String(code, format)` called without format arguments: `Status`,
then the plain-text renderer, which sets the content type and writes `format` as is. -/
def ResponseWriter.String (w : ResponseWriter) (code : Nat) (format : GoString) : ResponseWriter :=
  let w := w.WriteHeader code
  let w := writeContentType w [lit "text/plain; charset=utf-8"]
  if !bodyAllowedForStatus code then { w with written := true }
  else w.Write format

/-! ## The controller `SUBController` -/

/-- A Go `error` value. `multi` is the `multiError` of `util/common`. -/
inductive Error where
  | mk (msg : String)
  | multi (msgs : List String)
deriving DecidableEq, Repr

/-- The fields of `xray.ClientTraffic` read by `subs` (all `int64`). -/
structure ClientTraffic where
  Up : Int
  Down : Int
  Total : Int
  ExpiryTime : Int
deriving DecidableEq, Repr

/-- Modelled from the spec: the view model `PageData` is declared in `subService.go`,
which is not among the sources; the fields are those that `subs` reads. -/
structure PageData where
  Host : GoString
  BasePath : GoString
  SId : GoString
  Download : GoString
  Upload : GoString
  Total : GoString
  Used : GoString
  Remained : GoString
  Expire : Int
  LastOnline : Int
  DownloadByte : Int
  UploadByte : Int
  TotalByte : Int
  SubUrl : GoString
  SubJsonUrl : GoString
  Result : List GoString
deriving DecidableEq, Repr

/-- A value bound to a template variable in the `gin.H` map. -/
inductive TplValue where
  | str (s : GoString)
  | int (n : Int)
  | strs (l : List GoString)
deriving DecidableEq, Repr

/-- A parsed `html/template`: executing it on the variables performs a sequence of
writes (the error of `Execute` is discarded by `subs`). -/
abbrev Template := List (String × TplValue) → List GoString

/-- The part of the `gin.Context` of a request that `subs` reads. -/
structure Context where
  /-- The route parameter `c.Param("subid")`. -/
  subid : GoString
  /-- The request header `c.GetHeader("Accept")`. -/
  accept : GoString
  /-- The query value `c.Query("html")`. -/
  queryHtml : GoString
  /-- The query value `c.Query("view")`. -/
  queryView : GoString
  /-- The context value `c.Get("base_path")`, `none` when the key is not set. -/
  basePath : Option GoString
deriving DecidableEq, Repr

/-- The collaborators of the controller that are not part of `subController.go`: the
methods of `SubService`, `config.GetVersion`, `template.Parse` and `json.Unmarshal`
into a `[]map[string]string`. -/
structure Deps where
  /-- Returns `(scheme, host, hostWithPort, hostHeader)`. -/
  ResolveRequest : Context → GoString × GoString × GoString × GoString
  /-- Returns `(subs, lastOnline, traffic, err)` for `(subId, host)`. -/
  GetSubs : GoString → GoString → List GoString × Int × ClientTraffic × Option Error
  /-- Returns `(subURL, subJsonURL)`. -/
  BuildURLs : GoString → GoString → GoString → GoString → GoString → GoString × GoString
  BuildPageData : GoString → GoString → ClientTraffic → Int → List GoString → GoString →
    GoString → GoString → PageData
  GetVersion : GoString
  /-- The parsed template, `none` when `Parse` returns an error. -/
  templateParse : GoString → Option Template
  /-- The decoded list of maps, `none` when `Unmarshal` returns an error. -/
  jsonUnmarshal : GoString → Option (List (List (GoString × GoString)))

/-- The configuration held by `SubService` (`NewSubService(showInfo, rModel)`). -/
structure SubService where
  showInfo : Bool
  remarkModel : GoString
deriving DecidableEq, Repr

/-- The configuration held by `SubJsonService`. -/
structure SubJsonService where
  fragment : GoString
  noises : GoString
  mux : GoString
  rules : GoString
  subService : SubService
deriving DecidableEq, Repr

/-- The struct `SUBController`. -/
structure SUBController where
  subTitle : GoString
  subCustomHeaders : GoString
  subCustomHtml : GoString
  subPath : GoString
  subJsonPath : GoString
  jsonEnabled : Bool
  subEncrypt : Bool
  updateInterval : GoString
  subService : SubService
  subJsonService : SubJsonService
deriving DecidableEq, Repr

/-- The map read `hdr[key]` on a `map[string]string`: the empty string when absent. -/
def mapIndex (hdr : List (GoString × GoString)) (key : GoString) : GoString :=
  (hdr.lookup key).getD []

/-- The loop of `ApplyCommonHeaders` over the decoded custom headers. -/
def applyCustomHeaders (h : Header) : List (List (GoString × GoString)) → Header
  | [] => h
  | hdr :: rest =>
    let name := mapIndex hdr (lit "name")
    if name != [] then
      let value := mapIndex hdr (lit "value")
      applyCustomHeaders (h.Set name value) rest
    else applyCustomHeaders h rest

/-- The method `SUBController.ApplyCommonHeaders`, on the header map of the writer. -/
def ApplyCommonHeaders (d : Deps) (h : Header)
    (header updateInterval profileTitle customHeadersJSON : GoString) : Header :=
  let h := h.Set (lit "Subscription-Userinfo") header
  let h := h.Set (lit "Profile-Update-Interval") updateInterval
  let h :=
    if profileTitle != [] then
      h.Set (lit "Profile-Title") (lit "base64:" ++ EncodeToString profileTitle)
    else h
  if customHeadersJSON != [] then
    match d.jsonUnmarshal customHeadersJSON with
    | some customHeaders => applyCustomHeaders h customHeaders
    | none => h
  else h

/-- The verb `%d` of `fmt` on an `int64`. -/
def fmtInt (n : Int) : GoString := lit (toString n)

/-- The per-subscriber base path of `subs` (the lines after `c.Get("base_path")`). -/
def subBasePath (basePath : Option GoString) (subId : GoString) : GoString :=
  let basePathStr := match basePath with
    | some b => b
    | none => lit "/"
  if basePathStr == lit "/" then
    lit "/" ++ subId ++ lit "/"
  else
    TrimRight basePathStr (lit "/") ++ lit "/" ++ subId ++ lit "/"

/-- The condition of `subs` under which the HTML page is rendered. -/
def wantsHTML (c : Context) : Bool :=
  Contains (ToLower c.accept) (lit "text/html") || c.queryHtml == lit "1"
    || EqualFold c.queryView (lit "html")

/-- The variables handed to the custom template. -/
def templateVars (d : Deps) (page : PageData) : List (String × TplValue) :=
  [("title", .str (lit "subscription.title")),
   ("cur_ver", .str d.GetVersion),
   ("host", .str page.Host),
   ("base_path", .str page.BasePath),
   ("sId", .str page.SId),
   ("download", .str page.Download),
   ("upload", .str page.Upload),
   ("total", .str page.Total),
   ("used", .str page.Used),
   ("remained", .str page.Remained),
   ("expire", .int page.Expire),
   ("lastOnline", .int page.LastOnline),
   ("downloadByte", .int page.DownloadByte),
   ("uploadByte", .int page.UploadByte),
   ("totalByte", .int page.TotalByte),
   ("subUrl", .str page.SubUrl),
   ("subJsonUrl", .str page.SubJsonUrl),
   ("result", .strs page.Result)]

/-- The minimal HTML document of the `else` branch of `subs`. -/
def fallbackPage (w : ResponseWriter) (page : PageData) : ResponseWriter :=
  let w := { w with header := w.header.Set (lit "Content-Type") (lit "text/html; charset=utf-8") }
  let w := w.Write (lit "<html><head><title>Subscription " ++ page.SId
    ++ lit "</title></head><body>")
  let w := w.Write (lit "<h1>Subscription " ++ page.SId ++ lit "</h1>")
  let w := w.Write (lit "<p>Download: " ++ page.Download ++ lit ", Upload: " ++ page.Upload
    ++ lit ", Used: " ++ page.Used ++ lit ", Total: " ++ page.Total ++ lit "</p>")
  let w :=
    if page.SubUrl != [] then
      w.Write (lit "<p>URL: <a href=\"" ++ page.SubUrl ++ lit "\">" ++ page.SubUrl
        ++ lit "</a></p>")
    else w
  w.Write (lit "</body></html>")

/-- The HTML branch of `subs`: `some w` when the branch returns with the writer `w`,
`none` when control leaves the branch without returning. -/
def subsHTML (d : Deps) (a : SUBController) (c : Context) (w : ResponseWriter)
    (scheme hostWithPort hostHeader : GoString) (subs : List GoString) (lastOnline : Int)
    (traffic : ClientTraffic) : Option ResponseWriter :=
  let subId := c.subid
  let urls := d.BuildURLs scheme hostWithPort a.subPath a.subJsonPath subId
  let subURL := urls.1
  let subJsonURL := if !a.jsonEnabled then [] else urls.2
  let basePathStr := subBasePath c.basePath subId
  let page := d.BuildPageData subId hostHeader traffic lastOnline subs subURL subJsonURL
    basePathStr
  if a.subCustomHtml != [] then
    match d.templateParse a.subCustomHtml with
    | some tpl => some (w.WriteAll (tpl (templateVars d page)))
    | none => none
  else
    some (fallbackPage w page)

/-- The answer `(subs, lastOnline, traffic, err)` of the data service to the request:
`GetSubs(subId, host)` with the host of `ResolveRequest`. -/
def Deps.answer (d : Deps) (c : Context) : List GoString × Int × ClientTraffic × Option Error :=
  d.GetSubs c.subid (d.ResolveRequest c).2.1

/-- The usage header value built by `subs`. -/
def usageHeader (traffic : ClientTraffic) : GoString :=
  lit "upload=" ++ fmtInt traffic.Up ++ lit "; download=" ++ fmtInt traffic.Down
    ++ lit "; total=" ++ fmtInt traffic.Total ++ lit "; expire="
    ++ fmtInt (traffic.ExpiryTime.tdiv 1000)

/-- The handler `SUBController.subs`, from the writer `w` the handler is entered with
to the writer it leaves. -/
def subs (d : Deps) (a : SUBController) (c : Context) (w : ResponseWriter) : ResponseWriter :=
  let subId := c.subid
  let resolved := d.ResolveRequest c
  let scheme := resolved.1
  let host := resolved.2.1
  let hostWithPort := resolved.2.2.1
  let hostHeader := resolved.2.2.2
  let got := d.GetSubs subId host
  let subs := got.1
  let lastOnline := got.2.1
  let traffic := got.2.2.1
  let err := got.2.2.2
  if err.isSome || subs.length == 0 then
    w.String 400 (lit "Error!")
  else
    let result := subs.foldl (fun result sub => result ++ (sub ++ lit "\n")) []
    let returned :=
      if wantsHTML c then
        subsHTML d a c w scheme hostWithPort hostHeader subs lastOnline traffic
      else none
    match returned with
    | some w => w
    | none =>
      let header := usageHeader traffic
      let w := { w with header :=
        ApplyCommonHeaders d w.header header a.updateInterval a.subTitle a.subCustomHeaders }
      if a.subEncrypt then
        w.String 200 (EncodeToString result)
      else
        w.String 200 result

/-! ## Concrete collaborators, used to evaluate the handlers -/

/-- A JSON decoder given by a finite table of texts and their decoded values; every
other text is an error. -/
def tableUnmarshal (table : List (GoString × List (List (GoString × GoString))))
    (text : GoString) : Option (List (List (GoString × GoString))) :=
  table.lookup text

/-- The custom-headers text with the two entries `X-Test: 1` and `X-Test: 2`. -/
def jsonTwice : GoString :=
  lit "[\x7b\"name\":\"X-Test\",\"value\":\"1\"\x7d,\x7b\"name\":\"X-Test\",\"value\":\"2\"\x7d]"

/-- The custom-headers text with `X-Test: 1` followed by `x-test: 2`. -/
def jsonMixedCase : GoString :=
  lit "[\x7b\"name\":\"X-Test\",\"value\":\"1\"\x7d,\x7b\"name\":\"x-test\",\"value\":\"2\"\x7d]"

/-- The custom-headers text with the single entry `Profile-Title: plain`. -/
def jsonTitle : GoString :=
  lit "[\x7b\"name\":\"Profile-Title\",\"value\":\"plain\"\x7d]"

/-- Collaborators for the examples: the data service answers `links` with traffic
`1/2/3/4000` (or the error `err`), the template source never parses, and the JSON
decoder knows the three texts above and `[]`. -/
def exampleDeps (links : List GoString) (err : Option Error) : Deps where
  ResolveRequest := fun _ => (lit "http", lit "example.org", lit "example.org:2096",
    lit "example.org:2096")
  GetSubs := fun _ _ => (links, 0, { Up := 1, Down := 2, Total := 3, ExpiryTime := 4000 }, err)
  BuildURLs := fun scheme hostWithPort subPath subJsonPath subId =>
    (scheme ++ lit "://" ++ hostWithPort ++ subPath ++ subId,
     scheme ++ lit "://" ++ hostWithPort ++ subJsonPath ++ subId)
  BuildPageData := fun subId hostHeader _ lastOnline subs subURL subJsonURL basePath =>
    { Host := hostHeader, BasePath := basePath, SId := subId, Download := lit "2 B",
      Upload := lit "1 B", Total := lit "3 B", Used := lit "3 B", Remained := lit "0 B",
      Expire := 4, LastOnline := lastOnline, DownloadByte := 2, UploadByte := 1,
      TotalByte := 3, SubUrl := subURL, SubJsonUrl := subJsonURL, Result := subs }
  GetVersion := lit "2.0.0"
  templateParse := fun _ => none
  jsonUnmarshal := tableUnmarshal
    [(lit "[]", []),
     (jsonTwice, [[(lit "name", lit "X-Test"), (lit "value", lit "1")],
                  [(lit "name", lit "X-Test"), (lit "value", lit "2")]]),
     (jsonMixedCase, [[(lit "name", lit "X-Test"), (lit "value", lit "1")],
                      [(lit "name", lit "x-test"), (lit "value", lit "2")]]),
     (jsonTitle, [[(lit "name", lit "Profile-Title"), (lit "value", lit "plain")]])]

/-- A controller for the examples. -/
def exampleController (encrypt : Bool) (customHtml customHeaders : GoString) : SUBController where
  subTitle := lit "My Panel"
  subCustomHeaders := customHeaders
  subCustomHtml := customHtml
  subPath := lit "/sub/"
  subJsonPath := lit "/json/"
  jsonEnabled := false
  subEncrypt := encrypt
  updateInterval := lit "10"
  subService := { showInfo := false, remarkModel := lit "-ieo" }
  subJsonService := { fragment := [], noises := [], mux := [], rules := [],
                      subService := { showInfo := false, remarkModel := lit "-ieo" } }

/-- A request for subscriber `abc`. -/
def exampleContext (accept queryHtml : GoString) : Context where
  subid := lit "abc"
  accept := accept
  queryHtml := queryHtml
  queryView := []
  basePath := some (lit "/sub/")

/-- The name of a decoded custom-header entry is applied and denotes the header `n`:
it is non-empty and has the canonical form of `n`. -/
def entryMatches (n : GoString) (e : List (GoString × GoString)) : Bool :=
  mapIndex e (lit "name") != [] &&
    CanonicalMIMEHeaderKey (mapIndex e (lit "name")) == CanonicalMIMEHeaderKey n

/-- The value of the last entry of the list that denotes the header `n`, if any. -/
def lastEntryValue (l : List (List (GoString × GoString))) (n : GoString) : Option GoString :=
  (l.reverse.find? (entryMatches n)).map (fun e => mapIndex e (lit "value"))

/-- The value of the last entry of the list whose name is exactly `n`, if any. -/
def lastNamedValue (l : List (List (GoString × GoString))) (n : GoString) : Option GoString :=
  (l.reverse.find? (fun e => mapIndex e (lit "name") == n)).map
    (fun e => mapIndex e (lit "value"))

/-! ## The server of `sub.go` -/

/-- A loaded `tls.Certificate`. -/
structure Certificate where
  pem : GoString
deriving DecidableEq, Repr

/-- A `net.Listener`: the TCP listener of `net.Listen`, or a listener wrapped by
`network.NewAutoHttpsListener` or by `tls.NewListener`. -/
inductive Listener where
  | tcp (addr : GoString)
  | autoHttps (inner : Listener)
  | tls (inner : Listener) (cert : Certificate)
deriving DecidableEq, Repr

/-- A route registered by `RouterGroup.GET`: the path of the group (as handed to
`Group`), the relative path of the route and the name of the handler method. -/
structure Route where
  group : GoString
  relativePath : GoString
  handler : String
deriving DecidableEq, Repr

/-- The gin engine built by `initRouter`: the domain validated by the optional
middleware, the `base_path` set on every request, the controller and the routes it
registered. -/
structure Engine where
  subDomain : GoString
  basePath : GoString
  controller : SUBController
  routes : List Route
deriving DecidableEq, Repr

/-- The `http.Server` created by `Start`. -/
structure HttpServer where
  Handler : Engine
deriving DecidableEq, Repr

/-- The struct `Server`; `ctxDone` tells whether the lifetime context is cancelled. The
setting service is part of the environment `Env`. -/
structure Server where
  httpServer : Option HttpServer
  listener : Option Listener
  sub : Option SUBController
  ctxDone : Bool
deriving DecidableEq, Repr

/-- The function `NewServer`. -/
def NewServer : Server :=
  { httpServer := none, listener := none, sub := none, ctxDone := false }

/-- An effect of `Start` or `Stop` on the outside world, in the order performed. -/
inductive Event where
  /-- A call of the setting service method of this name. -/
  | lookup (name : String)
  /-- The call `net.Listen("tcp", addr)`. -/
  | listen (addr : GoString)
  /-- A call of `RouterGroup.GET` registering the route. -/
  | route (r : Route)
  /-- The call `tls.LoadX509KeyPair(certFile, keyFile)`. -/
  | loadX509KeyPair (certFile keyFile : GoString)
  /-- A call of `logger.Info` or `logger.Error`. -/
  | log (level : String) (msg : String)
  /-- The goroutine running `httpServer.Serve(listener)` is launched. -/
  | serve (l : Listener)
  /-- The call `s.cancel()`. -/
  | cancel
  /-- The call `s.httpServer.Shutdown(s.ctx)`. -/
  | shutdown
  /-- The call `s.listener.Close()`. -/
  | close (l : Listener)
deriving DecidableEq, Repr

/-- The answers of the world to the calls of `Start` and `Stop`: what each setting
lookup returns, whether gin accepts a route, whether `net.Listen` succeeds, what the
files read by `tls.LoadX509KeyPair` hold and whether they parse as a key pair, and the
errors of `Shutdown` and `Close`, which may depend on everything done before. -/
structure Env where
  GetSubEnable : Except Error Bool
  GetSubDomain : Except Error GoString
  GetSubPath : Except Error GoString
  GetSubJsonPath : Except Error GoString
  GetSubJsonEnable : Except Error Bool
  GetSubEncrypt : Except Error Bool
  GetSubShowInfo : Except Error Bool
  GetRemarkModel : Except Error GoString
  GetSubUpdates : Except Error GoString
  GetSubJsonFragment : Except Error GoString
  GetSubJsonNoises : Except Error GoString
  GetSubJsonMux : Except Error GoString
  GetSubJsonRules : Except Error GoString
  GetSubTitle : Except Error GoString
  GetSubCustomHeaders : Except Error GoString
  GetSubCustomHtml : Except Error GoString
  GetSubCertFile : Except Error GoString
  GetSubKeyFile : Except Error GoString
  GetSubListen : Except Error GoString
  GetSubPort : Except Error Int
  /-- The message gin panics with when the route cannot be added to a router that holds
  `routes` (a wildcard conflict, a malformed path, a path registered before), `none`
  when the route is added. -/
  addRoutePanic : List Route → Route → Option String
  /-- The error of `net.Listen("tcp", addr)`, `none` when the socket is bound. -/
  Listen : GoString → Option Error
  /-- The content of the file of this (non-empty) name, or the error of reading it. -/
  ReadFile : GoString → Except Error GoString
  /-- Go `tls.X509KeyPair` on the two PEM blocks. -/
  X509KeyPair : GoString → GoString → Except Error Certificate
  Shutdown : List Event → Option Error
  Close : List Event → Listener → Option Error

/-- How a call ends: it returns a value, it returns an error, or it panics. -/
inductive Outcome (α : Type) where
  | ok (a : α)
  | error (err : Error)
  | panic (msg : String)
deriving DecidableEq, Repr

/-- The outcome of a call returning `(value, err)`. -/
def Outcome.ofExcept {α : Type} (r : Except Error α) : Outcome α :=
  match r with
  | .ok v => .ok v
  | .error e => .error e

/-- A step of `Start`: from the server and the events so far to the server and events
after it, with the value it yields, the error it returns or the panic it raises. -/
def Action (α : Type) : Type :=
  Server × List Event → (Server × List Event) × Outcome α

/-- Running a step. -/
def Action.run {α : Type} (m : Action α) (st : Server × List Event) :
    (Server × List Event) × Outcome α := m st

instance : Monad Action where
  pure a := fun st => (st, .ok a)
  bind m f := fun st =>
    match m st with
    | (st1, .ok a) => f a st1
    | (st1, .error e) => (st1, .error e)
    | (st1, .panic msg) => (st1, .panic msg)

/-- Records an event. -/
def emit (ev : Event) : Action Unit := fun st => ((st.1, st.2 ++ [ev]), .ok ())

/-- A setting lookup whose error is returned to the caller (`if err != nil return`). -/
def lookup {α : Type} (name : String) (r : Except Error α) : Action α := fun st =>
  ((st.1, st.2 ++ [Event.lookup name]), Outcome.ofExcept r)

/-- The value of a returned pair `(value, err)`, replaced by `fallback` when `err` is
not nil. -/
def valueOr {α : Type} (r : Except Error α) (fallback : α) : α :=
  match r with
  | .ok v => v
  | .error _ => fallback

/-- A setting lookup whose error is replaced by a fallback value. -/
def lookupOr {α : Type} (name : String) (r : Except Error α) (fallback : α) : Action α :=
  fun st => ((st.1, st.2 ++ [Event.lookup name]), .ok (valueOr r fallback))

/-- An assignment to fields of the server. -/
def setServer (f : Server → Server) : Action Unit := fun st => ((f st.1, st.2), .ok ())

/-- The `base_path` value computed by `initRouter` from the links path. -/
def routerBasePath (LinksPath : GoString) : GoString :=
  let basePath := LinksPath
  if basePath != lit "/" && !HasSuffix basePath (lit "/") then
    basePath ++ lit "/"
  else basePath

/-- The route `GET <subPath>/:subid` of the link handler. -/
def linkRoute (subPath : GoString) : Route :=
  { group := subPath, relativePath := lit ":subid", handler := "subs" }

/-- The route `GET <subJsonPath>/:subid` of the JSON handler. -/
def jsonRoute (subJsonPath : GoString) : Route :=
  { group := subJsonPath, relativePath := lit ":subid", handler := "subJsons" }

/-- The panic of adding the route `r` to a router that holds `routes`, `none` when the
route is added: gin panics (`handlers are already registered for path`) when the same
route was registered before, and otherwise when the environment says so. -/
def routePanic (env : Env) (routes : List Route) (r : Route) : Option String :=
  if routes.any (fun q => q.group == r.group && q.relativePath == r.relativePath) then
    some "handlers are already registered for path"
  else env.addRoutePanic routes r

/-- The call `g.Group(r.group).GET(r.relativePath, handler)` on a router that holds
`routes`: the routes afterwards, or the panic. -/
def GET (env : Env) (routes : List Route) (r : Route) : Action (List Route) := fun st =>
  ((st.1, st.2 ++ [Event.route r]),
    match routePanic env routes r with
    | some msg => .panic msg
    | none => .ok (routes ++ [r]))

/-- The method `SUBController.initRouter` on the root group of a new engine. -/
def SUBController.initRouter (env : Env) (a : SUBController) : Action (List Route) := do
  let routes ← GET env [] (linkRoute a.subPath)
  if a.jsonEnabled then
    GET env routes (jsonRoute a.subJsonPath)
  else
    pure routes

/-- Whether gin accepts the routes `SUBController.initRouter` registers for these
paths. -/
def routesAccepted (env : Env) (subPath jsonPath : GoString) (jsonEnabled : Bool) : Bool :=
  (routePanic env [] (linkRoute subPath)).isNone &&
    (!jsonEnabled || (routePanic env [linkRoute subPath] (jsonRoute jsonPath)).isNone)

/-- The composite literal `&SUBController{...}` of `NewSUBController`. -/
def controllerLiteral (subPath jsonPath : GoString) (jsonEnabled encrypt showInfo : Bool)
    (rModel update jsonFragment jsonNoise jsonMux jsonRules subTitle subCustomHeaders
      subCustomHtml : GoString) : SUBController :=
  let sub : SubService := { showInfo := showInfo, remarkModel := rModel }
  { subTitle := subTitle
    subCustomHeaders := subCustomHeaders
    subCustomHtml := subCustomHtml
    subPath := subPath
    subJsonPath := jsonPath
    jsonEnabled := jsonEnabled
    subEncrypt := encrypt
    updateInterval := update
    subService := sub
    subJsonService := { fragment := jsonFragment, noises := jsonNoise, mux := jsonMux,
                        rules := jsonRules, subService := sub } }

/-- The function `NewSUBController`: the controller and the routes it registered. -/
def NewSUBController (env : Env) (subPath jsonPath : GoString)
    (jsonEnabled encrypt showInfo : Bool)
    (rModel update jsonFragment jsonNoise jsonMux jsonRules subTitle subCustomHeaders
      subCustomHtml : GoString) : Action (SUBController × List Route) := do
  let a := controllerLiteral subPath jsonPath jsonEnabled encrypt showInfo rModel update
    jsonFragment jsonNoise jsonMux jsonRules subTitle subCustomHeaders subCustomHtml
  let routes ← a.initRouter env
  pure (a, routes)

/-- The method `Server.initRouter`. -/
def initRouter (env : Env) : Action Engine := do
  let subDomain ← lookup "GetSubDomain" env.GetSubDomain
  let LinksPath ← lookup "GetSubPath" env.GetSubPath
  let JsonPath ← lookup "GetSubJsonPath" env.GetSubJsonPath
  let subJsonEnable ← lookup "GetSubJsonEnable" env.GetSubJsonEnable
  let basePath := routerBasePath LinksPath
  let Encrypt ← lookup "GetSubEncrypt" env.GetSubEncrypt
  let ShowInfo ← lookup "GetSubShowInfo" env.GetSubShowInfo
  let RemarkModel ← lookupOr "GetRemarkModel" env.GetRemarkModel (lit "-ieo")
  let SubUpdates ← lookupOr "GetSubUpdates" env.GetSubUpdates (lit "10")
  let SubJsonFragment ← lookupOr "GetSubJsonFragment" env.GetSubJsonFragment (lit "")
  let SubJsonNoises ← lookupOr "GetSubJsonNoises" env.GetSubJsonNoises (lit "")
  let SubJsonMux ← lookupOr "GetSubJsonMux" env.GetSubJsonMux (lit "")
  let SubJsonRules ← lookupOr "GetSubJsonRules" env.GetSubJsonRules (lit "")
  let SubTitle ← lookupOr "GetSubTitle" env.GetSubTitle (lit "")
  let SubCustomHeaders ← lookupOr "GetSubCustomHeaders" env.GetSubCustomHeaders (lit "[]")
  let SubCustomHtml ← lookupOr "GetSubCustomHtml" env.GetSubCustomHtml (lit "")
  let sub ← NewSUBController env LinksPath JsonPath subJsonEnable Encrypt ShowInfo RemarkModel
    SubUpdates SubJsonFragment SubJsonNoises SubJsonMux SubJsonRules SubTitle SubCustomHeaders
    SubCustomHtml
  setServer (fun s => { s with sub := some sub.1 })
  pure { subDomain := subDomain, basePath := basePath, controller := sub.1, routes := sub.2 }

/-- Go `net.JoinHostPort`: a host with a colon is put in brackets. -/
def JoinHostPort (host port : GoString) : GoString :=
  if host.contains 58 then lit "[" ++ host ++ lit "]:" ++ port
  else host ++ lit ":" ++ port

/-- The message of an error. -/
def Error.message : Error → String
  | .mk msg => msg
  | .multi msgs => String.intercalate " | " msgs

/-- Modelled from the spec: `common.Combine` is declared in `util/common`, which is not
among the sources. It returns no error when none of its arguments is one, and otherwise
the combination of the errors that occurred. -/
def Combine (maybeError : List (Option Error)) : Option Error :=
  match maybeError.filterMap id with
  | [] => none
  | errs => some (.multi (errs.map Error.message))

/-- The method `Server.Stop`. -/
def Stop (env : Env) (st : Server × List Event) : (Server × List Event) × Option Error :=
  let s : Server := { st.1 with ctxDone := true }
  let t := st.2 ++ [Event.cancel]
  let r1 : Option Error × List Event :=
    match s.httpServer with
    | some _ => (env.Shutdown t, t ++ [Event.shutdown])
    | none => (none, t)
  let err1 := r1.1
  let t := r1.2
  let r2 : Option Error × List Event :=
    match s.listener with
    | some l => (env.Close t l, t ++ [Event.close l])
    | none => (none, t)
  let err2 := r2.1
  let t := r2.2
  ((s, t), Combine [err1, err2])

/-- Go `os.ReadFile`: the empty name denotes no file and the open fails; every other
name is answered by the environment. -/
def ReadFile (env : Env) (name : GoString) : Except Error GoString :=
  if name = [] then .error (.mk "open : no such file or directory")
  else env.ReadFile name

/-- Go `tls.LoadX509KeyPair`: reads the certificate file, then the key file, and parses
the two blocks; the first error is returned. -/
def LoadX509KeyPair (env : Env) (certFile keyFile : GoString) : Except Error Certificate :=
  match ReadFile env certFile with
  | .error err => .error err
  | .ok certPEMBlock =>
    match ReadFile env keyFile with
    | .error err => .error err
    | .ok keyPEMBlock => env.X509KeyPair certPEMBlock keyPEMBlock

/-- The TLS step of `Start`: the listener to serve on, given the bound TCP listener. -/
def tlsStep (env : Env) (certFile keyFile : GoString) (listener : Listener) : Action Listener := do
  if certFile != [] || keyFile != [] then
    emit (.loadX509KeyPair certFile keyFile)
    match LoadX509KeyPair env certFile keyFile with
    | .ok cert =>
      let listener := Listener.autoHttps listener
      let listener := Listener.tls listener cert
      emit (.log "info" "Sub server running HTTPS on")
      pure listener
    | .error _ =>
      emit (.log "error" "Error loading certificates:")
      emit (.log "info" "Sub server running HTTP on")
      pure listener
  else
    emit (.log "info" "Sub server running HTTP on")
    pure listener

/-- The body of `Server.Start`, before the deferred function runs. -/
def startBody (env : Env) : Action Unit := do
  let subEnable ← lookup "GetSubEnable" env.GetSubEnable
  if !subEnable then
    pure ()
  else
    let engine ← initRouter env
    let certFile ← lookup "GetSubCertFile" env.GetSubCertFile
    let keyFile ← lookup "GetSubKeyFile" env.GetSubKeyFile
    let listen ← lookup "GetSubListen" env.GetSubListen
    let port ← lookup "GetSubPort" env.GetSubPort
    let listenAddr := JoinHostPort listen (fmtInt port)
    emit (.listen listenAddr)
    match env.Listen listenAddr with
    | some err => fun st => (st, .error err)
    | none =>
      let listener ← tlsStep env certFile keyFile (Listener.tcp listenAddr)
      setServer (fun s => { s with listener := some listener })
      setServer (fun s => { s with httpServer := some { Handler := engine } })
      emit (.serve listener)
      pure ()

/-- The method `Server.Start`: the body, then the deferred function, which calls `Stop`
when the body returned an error. When the body panics, `err` is still nil, the deferred
function does nothing and the panic goes on to the caller. `.ok ()` is the return of
`nil`. -/
def Start (env : Env) (st : Server × List Event) : (Server × List Event) × Outcome Unit :=
  match (startBody env).run st with
  | (st1, .error err) => ((Stop env st1).1, .error err)
  | (st1, .ok _) => (st1, .ok ())
  | (st1, .panic msg) => (st1, .panic msg)

/-- The error of a returned pair `(value, err)`. -/
def errOf {α : Type} (r : Except Error α) : Option Error :=
  match r with
  | .ok _ => none
  | .error e => some e

/-- The errors, in program order, of the calls of `Start` whose error `Start` returns:
the lookups without fallback value and, once address and port are known, the bind. -/
def fatalOutcomes (env : Env) : List (Option Error) :=
  [errOf env.GetSubEnable, errOf env.GetSubDomain, errOf env.GetSubPath,
   errOf env.GetSubJsonPath, errOf env.GetSubJsonEnable, errOf env.GetSubEncrypt,
   errOf env.GetSubShowInfo, errOf env.GetSubCertFile, errOf env.GetSubKeyFile,
   errOf env.GetSubListen, errOf env.GetSubPort,
   match env.GetSubListen, env.GetSubPort with
   | .ok listen, .ok port => env.Listen (JoinHostPort listen (fmtInt port))
   | _, _ => none]

/-- The first error of a list of outcomes. -/
def firstError (outcomes : List (Option Error)) : Option Error :=
  outcomes.findSome? id

/-- Whether an event is a setting lookup. -/
def Event.isLookup : Event → Bool
  | .lookup _ => true
  | _ => false

/-- Whether an event is a socket bind. -/
def Event.isListen : Event → Bool
  | .listen _ => true
  | _ => false

/-- Whether an event is a key-pair load. -/
def Event.isLoad : Event → Bool
  | .loadX509KeyPair _ _ => true
  | _ => false

/-- An environment for the examples: every lookup succeeds with the given certificate
and key paths; gin accepts every route not registered before; the bind succeeds; no
file exists; `Shutdown` succeeds; `Close` fails on a listener that was closed before. -/
def exampleEnv (certFile keyFile : GoString) : Env where
  GetSubEnable := .ok true
  GetSubDomain := .ok []
  GetSubPath := .ok (lit "/sub/")
  GetSubJsonPath := .ok (lit "/json/")
  GetSubJsonEnable := .ok false
  GetSubEncrypt := .ok true
  GetSubShowInfo := .ok false
  GetRemarkModel := .ok (lit "-ieo")
  GetSubUpdates := .ok (lit "12")
  GetSubJsonFragment := .ok []
  GetSubJsonNoises := .ok []
  GetSubJsonMux := .ok []
  GetSubJsonRules := .ok []
  GetSubTitle := .ok []
  GetSubCustomHeaders := .ok []
  GetSubCustomHtml := .ok []
  GetSubCertFile := .ok certFile
  GetSubKeyFile := .ok keyFile
  GetSubListen := .ok []
  GetSubPort := .ok 2096
  Listen := fun _ => none
  addRoutePanic := fun _ _ => none
  ReadFile := fun _ => .error (.mk "open: no such file or directory")
  X509KeyPair := fun _ _ => .error (.mk "tls: failed to find any PEM data")
  Shutdown := fun _ => none
  Close := fun t l =>
    if t.contains (Event.close l) then some (.mk "use of closed network connection") else none

/-- The setting lookups of a run of `initRouter` that reaches the route registration,
in program order. -/
def routerLookups : List Event :=
  ["GetSubDomain", "GetSubPath", "GetSubJsonPath", "GetSubJsonEnable", "GetSubEncrypt",
   "GetSubShowInfo", "GetRemarkModel", "GetSubUpdates", "GetSubJsonFragment",
   "GetSubJsonNoises", "GetSubJsonMux", "GetSubJsonRules", "GetSubTitle",
   "GetSubCustomHeaders", "GetSubCustomHtml"].map Event.lookup

/-- The setting lookups of `Start` between `initRouter` and the bind. -/
def addressLookups : List Event :=
  ["GetSubCertFile", "GetSubKeyFile", "GetSubListen", "GetSubPort"].map Event.lookup

/-- The events of a run of `Start` up to the bind: the lookups, the route registrations of
the engine and the call of `net.Listen`. -/
def startEvents (engine : Engine) (addr : GoString) : List Event :=
  [Event.lookup "GetSubEnable"] ++ routerLookups ++ engine.routes.map Event.route
    ++ addressLookups ++ [Event.listen addr]

/-- The three outcomes of the TLS step of `Start` for the bound address `addr`: the
listener `L` served on and the events `tl` of the step. -/
def tlsCase (env : Env) (certFile keyFile : GoString) (addr : GoString) (L : Listener)
    (tl : List Event) : Prop :=
  (certFile = [] ∧ keyFile = [] ∧ L = .tcp addr ∧
      tl = [.log "info" "Sub server running HTTP on"]) ∨
  ((certFile ≠ [] ∨ keyFile ≠ []) ∧ ∃ err, LoadX509KeyPair env certFile keyFile = .error err ∧
      L = .tcp addr ∧
      tl = [.loadX509KeyPair certFile keyFile, .log "error" "Error loading certificates:",
            .log "info" "Sub server running HTTP on"]) ∨
  ((certFile ≠ [] ∨ keyFile ≠ []) ∧ ∃ cert, LoadX509KeyPair env certFile keyFile = .ok cert ∧
      L = .tls (.autoHttps (.tcp addr)) cert ∧
      tl = [.loadX509KeyPair certFile keyFile, .log "info" "Sub server running HTTPS on"])

/-- The example environment with a failing port lookup. -/
def failingEnv : Env :=
  { exampleEnv [] [] with GetSubPort := .error (.mk "record not found") }

end Sub

namespace Sub

/-! ## Lemmas on strings and base64 -/

theorem decodeMap_encodeByte (v : Nat) : decodeMap (encodeByte v) = some (v % 64) := by
  have h : ∀ i : Fin 64, decodeMap (encodeStd.getD i.val 0) = some i.val := by decide
  have := h ⟨v % 64, Nat.mod_lt _ (by decide)⟩
  simpa [encodeByte] using this

theorem encodeByte_not_newline (v : Nat) :
    (!(encodeByte v == 10 || encodeByte v == 13)) = true := by
  have h : ∀ i : Fin 64,
      (!(encodeStd.getD i.val 0 == 10 || encodeStd.getD i.val 0 == 13)) = true := by decide
  have := h ⟨v % 64, Nat.mod_lt _ (by decide)⟩
  simpa [encodeByte] using this

theorem filter_EncodeToString (s : GoString) :
    (EncodeToString s).filter (fun c => !(c == 10 || c == 13)) = EncodeToString s := by
  apply List.filter_eq_self.mpr
  induction s using EncodeToString.induct with
  | case1 b0 b1 b2 rest ih =>
    intro c hc
    simp only [EncodeToString, List.mem_cons] at hc
    rcases hc with h | h | h | h | h
    · subst h; exact encodeByte_not_newline _
    · subst h; exact encodeByte_not_newline _
    · subst h; exact encodeByte_not_newline _
    · subst h; exact encodeByte_not_newline _
    · exact ih c h
  | case2 b0 b1 =>
    intro c hc
    simp only [EncodeToString, List.mem_cons, List.mem_nil_iff, or_false] at hc
    rcases hc with h | h | h | h
    · subst h; exact encodeByte_not_newline _
    · subst h; exact encodeByte_not_newline _
    · subst h; exact encodeByte_not_newline _
    · subst h; decide
  | case3 b0 =>
    intro c hc
    simp only [EncodeToString, List.mem_cons, List.mem_nil_iff, or_false] at hc
    rcases hc with h | h | h | h
    · subst h; exact encodeByte_not_newline _
    · subst h; exact encodeByte_not_newline _
    · subst h; decide
    · subst h; decide
  | case4 => intro c hc; simp [EncodeToString] at hc

theorem decodeMap_padChar : decodeMap padChar = none := by decide

theorem byte_ofNat_eq (b : Byte) (n : Nat) (h : n % 256 = b.val) : (Fin.ofNat n : Fin 256) = b := by
  apply Fin.ext
  simpa [Fin.ofNat] using h

theorem decodeQuanta_EncodeToString (s : GoString) :
    decodeQuanta (EncodeToString s) = some s := by
  induction s using EncodeToString.induct with
  | case1 b0 b1 b2 rest ih =>
    have h0 := b0.isLt
    have h1 := b1.isLt
    have h2 := b2.isLt
    simp only [EncodeToString, decodeQuanta, decodeMap_encodeByte, ih, Option.map_some',
      quantumBytes, Option.some.injEq, List.cons.injEq, and_true]
    refine ⟨byte_ofNat_eq _ _ ?_, byte_ofNat_eq _ _ ?_, byte_ofNat_eq _ _ ?_⟩ <;> omega
  | case2 b0 b1 =>
    have h0 := b0.isLt
    have h1 := b1.isLt
    simp only [EncodeToString, decodeQuanta, decodeMap_encodeByte, decodeMap_padChar,
      quantumBytes, and_self, if_true, Option.some.injEq, List.cons.injEq, and_true]
    refine ⟨byte_ofNat_eq _ _ ?_, byte_ofNat_eq _ _ ?_⟩ <;> omega
  | case3 b0 =>
    have h0 := b0.isLt
    simp only [EncodeToString, decodeQuanta, decodeMap_encodeByte, decodeMap_padChar,
      quantumBytes, and_self, if_true, Option.some.injEq, List.cons.injEq, and_true]
    exact byte_ofNat_eq _ _ (by omega)
  | case4 => simp [EncodeToString, decodeQuanta]

/-- Round trip of the standard base64 codec. -/
theorem DecodeString_EncodeToString (s : GoString) :
    DecodeString (EncodeToString s) = some s := by
  unfold DecodeString
  rw [filter_EncodeToString]
  exact decodeQuanta_EncodeToString s

end Sub

namespace Sub

/-! ## Lemmas on the response writer and the header map -/

theorem String_status (w : ResponseWriter) (code : Nat) (format : GoString)
    (hw : w.written = false) (hc : 0 < code) : (w.String code format).status = code := by
  unfold ResponseWriter.String writeContentType ResponseWriter.WriteHeader ResponseWriter.Write
  by_cases h : w.status = code <;> simp [h, hw, hc] <;> split <;> split <;> simp_all

theorem String_body (w : ResponseWriter) (code : Nat) (format : GoString)
    (hc : bodyAllowedForStatus code = true) : (w.String code format).body = w.body ++ format := by
  unfold ResponseWriter.String writeContentType ResponseWriter.WriteHeader ResponseWriter.Write
  simp only [hc, Bool.not_true, Bool.false_eq_true, if_false]
  repeat' split
  all_goals rfl

theorem foldl_lines (nl : GoString) (l : List GoString) (acc : GoString) :
    l.foldl (fun result sub => result ++ (sub ++ nl)) acc
      = acc ++ (l.map (fun sub => sub ++ nl)).flatten := by
  induction l generalizing acc with
  | nil => simp
  | cons x xs ih => simp [List.foldl_cons, ih, List.append_assoc]

theorem join_lines (nl : GoString) (l : List GoString) (hl : l ≠ []) :
    (l.map (fun sub => sub ++ nl)).flatten = List.intercalate nl l ++ nl := by
  induction l with
  | nil => exact absurd rfl hl
  | cons x xs ih =>
    cases xs with
    | nil => simp [List.intercalate]
    | cons y ys =>
      have := ih (by simp)
      simp only [List.map_cons, List.flatten_cons] at this ⊢
      rw [this]
      simp [List.intercalate, List.intersperse, List.append_assoc]

theorem subs_plain (d : Deps) (a : SUBController) (c : Context) (w : ResponseWriter)
    (hlinks : (d.answer c).1 ≠ []) (herr : (d.answer c).2.2.2 = none)
    (hhtml : wantsHTML c = false) :
    subs d a c w =
      ({ w with header := ApplyCommonHeaders d w.header (usageHeader (d.answer c).2.2.1)
                  a.updateInterval a.subTitle a.subCustomHeaders } : ResponseWriter).String 200
        (if a.subEncrypt then
          EncodeToString (List.intercalate (lit "\n") (d.answer c).1 ++ lit "\n")
         else List.intercalate (lit "\n") (d.answer c).1 ++ lit "\n") := by
  unfold Deps.answer at hlinks herr ⊢
  have hlen : ((d.GetSubs c.subid (d.ResolveRequest c).2.1).1.length == 0) = false := by
    simpa using hlinks
  simp only [subs, herr, Option.isSome_none, hlen, Bool.or_false, Bool.false_eq_true, if_false,
    hhtml, foldl_lines, List.nil_append, join_lines _ _ hlinks]
  split <;> rfl

end Sub

namespace Sub

/-! ## Lemmas on `Header.Set`, `Header.Get` and the custom-header loop -/

theorem lookup_filter_ne (h : Header) (k key : GoString) :
    (h.filter (fun p => !(p.1 == key))).lookup k = if k = key then none else h.lookup k := by
  induction h with
  | nil => simp
  | cons p ps ih =>
    obtain ⟨a, b⟩ := p
    by_cases hk : k = key
    · subst hk
      by_cases ha : a = k
      · subst ha; simpa using ih
      · have : (a == k) = false := by simpa using ha
        simp only [List.filter_cons, this, Bool.not_false, if_true, if_true]
        have hka : (k == a) = false := by simpa using fun h => ha h.symm
        simp only [List.lookup_cons, hka]
        simpa using ih
    · simp only [hk, if_false] at ih ⊢
      by_cases ha : a = key
      · subst ha
        have hka : (k == a) = false := by simpa using hk
        simp [List.filter_cons, List.lookup_cons, hka, ih]
      · have : (a == key) = false := by simpa using ha
        simp only [List.filter_cons, this, Bool.not_false, if_true, List.lookup_cons, ih]

theorem Get_Set (h : Header) (key value n : GoString) :
    (h.Set key value).Get n =
      if CanonicalMIMEHeaderKey n = CanonicalMIMEHeaderKey key then value else h.Get n := by
  unfold Header.Get Header.Set Header.assign Header.index
  by_cases hk : CanonicalMIMEHeaderKey n = CanonicalMIMEHeaderKey key
  · simp [hk, List.lookup_cons]
  · have : (CanonicalMIMEHeaderKey n == CanonicalMIMEHeaderKey key) = false := by simpa using hk
    simp only [List.lookup_cons, this, lookup_filter_ne, hk, if_false]

theorem lastEntryValue_cons (e : List (GoString × GoString))
    (rest : List (List (GoString × GoString))) (n : GoString) :
    lastEntryValue (e :: rest) n =
      match lastEntryValue rest n with
      | some v => some v
      | none => if entryMatches n e then some (mapIndex e (lit "value")) else none := by
  unfold lastEntryValue
  rw [List.reverse_cons, List.find?_append]
  cases hfind : rest.reverse.find? (entryMatches n) with
  | some x => simp
  | none =>
    by_cases hm : entryMatches n e = true
    · simp [List.find?_cons, hm]
    · have : entryMatches n e = false := by simpa using hm
      simp [List.find?_cons, this]

theorem Get_applyCustomHeaders (l : List (List (GoString × GoString))) (h : Header)
    (n : GoString) :
    (applyCustomHeaders h l).Get n =
      match lastEntryValue l n with
      | some v => v
      | none => h.Get n := by
  induction l generalizing h with
  | nil => simp [applyCustomHeaders, lastEntryValue]
  | cons e rest ih =>
    rw [lastEntryValue_cons]
    unfold applyCustomHeaders
    by_cases hname : mapIndex e (lit "name") = []
    · have hm : entryMatches n e = false := by simp [entryMatches, hname]
      simp only [hname, bne_self_eq_false, Bool.false_eq_true, if_false, ih, hm]
      cases lastEntryValue rest n <;> rfl
    · have hne : (mapIndex e (lit "name") != []) = true := by simpa using hname
      simp only [hne, if_true, ih, Get_Set]
      cases lastEntryValue rest n with
      | some v => rfl
      | none =>
        by_cases hc : CanonicalMIMEHeaderKey n = CanonicalMIMEHeaderKey (mapIndex e (lit "name"))
        · simp [entryMatches, hne, hc]
        · have : (CanonicalMIMEHeaderKey (mapIndex e (lit "name")) == CanonicalMIMEHeaderKey n)
              = false := by simpa using fun h => hc h.symm
          simp [entryMatches, hne, hc, this]

theorem lastEntryValue_eq_none (l : List (List (GoString × GoString))) (n : GoString)
    (hno : ∀ e ∈ l, entryMatches n e = false) : lastEntryValue l n = none := by
  unfold lastEntryValue
  rw [Option.map_eq_none', List.find?_eq_none]
  intro e he
  simpa using hno e (List.mem_reverse.mp he)

theorem lastEntryValue_isSome (l : List (List (GoString × GoString))) (n : GoString)
    (e : List (GoString × GoString)) (he : e ∈ l) (hm : entryMatches n e = true) :
    (lastEntryValue l n).isSome = true := by
  unfold lastEntryValue
  rw [Option.isSome_map', List.find?_isSome]
  exact ⟨e, List.mem_reverse.mpr he, hm⟩

theorem subs_plain_body (d : Deps) (a : SUBController) (c : Context) (h : Header)
    (hlinks : (d.answer c).1 ≠ []) (herr : (d.answer c).2.2.2 = none)
    (hhtml : wantsHTML c = false) :
    (subs d a c (ResponseWriter.reset h)).status = 200 ∧
    (subs d a c (ResponseWriter.reset h)).body =
      (if a.subEncrypt then
        EncodeToString (List.intercalate (lit "\n") (d.answer c).1 ++ lit "\n")
       else List.intercalate (lit "\n") (d.answer c).1 ++ lit "\n") := by
  rw [subs_plain d a c _ hlinks herr hhtml]
  refine ⟨String_status _ _ _ rfl (by decide), ?_⟩
  rw [String_body _ _ _ (by decide)]
  rfl

end Sub

namespace Sub

/-! ## The handler `subs`: error, raw and base64 responses -/

/-- C1. In `subs`, for every subscriber id and request (whatever the Accept header, the
`html`/`view` query values and the encrypt flag are), if the data service returns an
error or an empty link list, the response status is 400 and the body is exactly
`Error!`. -/
theorem subs_error_response (d : Deps) (a : SUBController) (c : Context) (h : Header)
    (hfail : (d.answer c).2.2.2 ≠ none ∨ (d.answer c).1 = []) :
    (subs d a c (ResponseWriter.reset h)).status = 400 ∧
      (subs d a c (ResponseWriter.reset h)).body = lit "Error!" := by
  have hcond : ((d.GetSubs c.subid (d.ResolveRequest c).2.1).2.2.2.isSome
      || (d.GetSubs c.subid (d.ResolveRequest c).2.1).1.length == 0) = true := by
    unfold Deps.answer at hfail
    rcases hfail with h1 | h1
    · simp [Option.isSome_iff_ne_none, h1]
    · simp [h1]
  simp only [subs, hcond, if_true]
  exact ⟨String_status _ _ _ rfl (by decide), by rw [String_body _ _ _ (by decide)]; rfl⟩

theorem subs_error_response_witness :
    ((exampleDeps [] none).answer (exampleContext (lit "text/html") (lit "1"))).1 = [] ∧
    (subs (exampleDeps [] none) (exampleController true [] []) (exampleContext (lit "text/html") (lit "1"))
        (ResponseWriter.reset [])).status = 400 ∧
    (subs (exampleDeps [] none) (exampleController true [] []) (exampleContext (lit "text/html") (lit "1"))
        (ResponseWriter.reset [])).body = lit "Error!" :=
  ⟨by decide, subs_error_response _ _ _ _ (Or.inr (by decide))⟩

/-- C2. In `subs`, for every non-empty list of links returned by the data service
without error, when the request is not negotiated as HTML and encrypt is false, the
response has status 200 and its body is the links in the order returned, joined by a
line feed and followed by one trailing line feed. -/
theorem subs_raw_body (d : Deps) (a : SUBController) (c : Context) (h : Header)
    (hlinks : (d.answer c).1 ≠ []) (herr : (d.answer c).2.2.2 = none)
    (hhtml : wantsHTML c = false) (henc : a.subEncrypt = false) :
    (subs d a c (ResponseWriter.reset h)).status = 200 ∧
      (subs d a c (ResponseWriter.reset h)).body
        = List.intercalate (lit "\n") (d.answer c).1 ++ lit "\n" := by
  have hb := subs_plain_body d a c h hlinks herr hhtml
  rw [henc] at hb
  exact hb

theorem subs_raw_body_witness :
    (subs (exampleDeps [lit "vless://a", lit "vmess://b"] none) (exampleController false [] [])
        (exampleContext (lit "*/*") []) (ResponseWriter.reset [])).status = 200 ∧
    (subs (exampleDeps [lit "vless://a", lit "vmess://b"] none) (exampleController false [] [])
        (exampleContext (lit "*/*") []) (ResponseWriter.reset [])).body
      = List.intercalate (lit "\n") [lit "vless://a", lit "vmess://b"] ++ lit "\n" :=
  subs_raw_body (exampleDeps [lit "vless://a", lit "vmess://b"] none) (exampleController false [] [])
    (exampleContext (lit "*/*") []) [] (by decide) (by decide) (by decide) (by decide)

/-- C3. In `subs`, for every non-empty list of links, when the request is not
negotiated as HTML and encrypt is true, the response body is the standard base64
encoding of the body the same request yields with encrypt false, and standard base64
decoding of the response body gives that unencrypted body back. -/
theorem subs_encrypt_roundtrip (d : Deps) (a : SUBController) (c : Context) (h : Header)
    (hlinks : (d.answer c).1 ≠ []) (herr : (d.answer c).2.2.2 = none)
    (hhtml : wantsHTML c = false) (henc : a.subEncrypt = true) :
    (subs d a c (ResponseWriter.reset h)).body
        = EncodeToString (subs d { a with subEncrypt := false } c (ResponseWriter.reset h)).body ∧
      DecodeString (subs d a c (ResponseWriter.reset h)).body
        = some (subs d { a with subEncrypt := false } c (ResponseWriter.reset h)).body := by
  have hraw := (subs_plain_body d { a with subEncrypt := false } c h hlinks herr hhtml).2
  have henc_body := (subs_plain_body d a c h hlinks herr hhtml).2
  rw [henc] at henc_body
  rw [henc_body, hraw]
  exact ⟨rfl, DecodeString_EncodeToString _⟩

theorem subs_encrypt_roundtrip_witness :
    (subs (exampleDeps [lit "vless://a", lit "vmess://b"] none) (exampleController true [] [])
        (exampleContext (lit "*/*") []) (ResponseWriter.reset [])).body
      = EncodeToString (lit "vless://a\nvmess://b\n") ∧
    DecodeString (lit "dmxlc3M6Ly9hCnZtZXNzOi8vYgo=") = some (lit "vless://a\nvmess://b\n") := by
  have hw := subs_encrypt_roundtrip (exampleDeps [lit "vless://a", lit "vmess://b"] none)
    (exampleController true [] []) (exampleContext (lit "*/*") []) []
    (by decide) (by decide) (by decide) (by decide)
  exact ⟨hw.1.trans (by decide), by decide⟩

end Sub

namespace Sub

/-! ## The HTML branch of `subs` when the custom template does not parse -/

set_option maxRecDepth 100000 in
/-- C4 (the code at the failing input). For a request with `Accept: text/html`, one
link and a custom template source that does not parse, `subs` writes no HTML document:
it leaves the HTML branch and answers like the non-HTML path, with the usage header, the
common headers, content type `text/plain` and the raw link list as body. With no custom
template configured the same request gets the built-in HTML document. -/
theorem subs_template_failure_skips_fallback :
    wantsHTML (exampleContext (lit "text/html") []) = true ∧
    ((exampleDeps [lit "vless://a"] none).templateParse (lit "\x7b\x7b")).isNone = true ∧
    (subs (exampleDeps [lit "vless://a"] none) (exampleController false (lit "\x7b\x7b") [])
        (exampleContext (lit "text/html") []) (ResponseWriter.reset [])).body
      = lit "vless://a\n" ∧
    (subs (exampleDeps [lit "vless://a"] none) (exampleController false (lit "\x7b\x7b") [])
        (exampleContext (lit "text/html") []) (ResponseWriter.reset [])).header.Get
        (lit "Content-Type") = lit "text/plain; charset=utf-8" ∧
    (subs (exampleDeps [lit "vless://a"] none) (exampleController false (lit "\x7b\x7b") [])
        (exampleContext (lit "text/html") []) (ResponseWriter.reset [])).header.Get
        (lit "Subscription-Userinfo") = lit "upload=1; download=2; total=3; expire=4" ∧
    (subs (exampleDeps [lit "vless://a"] none) (exampleController false [] [])
        (exampleContext (lit "text/html") []) (ResponseWriter.reset [])).header.Get
        (lit "Content-Type") = lit "text/html; charset=utf-8" ∧
    (subs (exampleDeps [lit "vless://a"] none) (exampleController false [] [])
        (exampleContext (lit "text/html") []) (ResponseWriter.reset [])).body
      = lit ("<html><head><title>Subscription abc</title></head><body>"
          ++ "<h1>Subscription abc</h1>"
          ++ "<p>Download: 2 B, Upload: 1 B, Used: 3 B, Total: 3 B</p>"
          ++ "<p>URL: <a href=\"http://example.org:2096/sub/abc\">"
          ++ "http://example.org:2096/sub/abc</a></p></body></html>") := by
  decide

/-! ## `ApplyCommonHeaders` -/

/-- C5 (counterexample). With the non-empty title `My Panel` and the custom-headers
configuration holding the entry `Profile-Title: plain`, the `Profile-Title` header after
`ApplyCommonHeaders` is `plain`, which does not start with `base64:`. -/
theorem profile_title_overridden_by_custom_header :
    (exampleDeps [] none).jsonUnmarshal jsonTitle
      = some [[(lit "name", lit "Profile-Title"), (lit "value", lit "plain")]] ∧
    (ApplyCommonHeaders (exampleDeps [] none) [] (lit "upload=0") (lit "10") (lit "My Panel")
        jsonTitle).Get (lit "Profile-Title") = lit "plain" ∧
    HasPrefix (lit "plain") (lit "base64:") = false := by
  decide

/-- C5 (amended). After `ApplyCommonHeaders`, for every non-empty profile title and
every custom-headers configuration that is empty, does not parse, or has no entry whose
non-empty name is `Profile-Title` in canonical form, the `Profile-Title` header is
`base64:` followed by the standard base64 encoding of the title, and decoding the part
after `base64:` gives the title back. -/
theorem profile_title_wrapped (d : Deps) (h : Header)
    (header updateInterval profileTitle customHeadersJSON : GoString)
    (htitle : profileTitle ≠ [])
    (hcustom : ∀ l, customHeadersJSON ≠ [] → d.jsonUnmarshal customHeadersJSON = some l →
      ∀ e ∈ l, entryMatches (lit "Profile-Title") e = false) :
    ∃ rest,
      (ApplyCommonHeaders d h header updateInterval profileTitle customHeadersJSON).Get
          (lit "Profile-Title") = lit "base64:" ++ rest ∧
      rest = EncodeToString profileTitle ∧
      DecodeString rest = some profileTitle := by
  refine ⟨EncodeToString profileTitle, ?_, rfl, DecodeString_EncodeToString _⟩
  have ht : (profileTitle != []) = true := by simpa using htitle
  unfold ApplyCommonHeaders
  simp only [ht, if_true]
  by_cases hc : customHeadersJSON = []
  · simp [hc, Get_Set]
  · have hcb : (customHeadersJSON != []) = true := by simpa using hc
    simp only [hcb, if_true]
    cases hp : d.jsonUnmarshal customHeadersJSON with
    | none => simp [Get_Set]
    | some l =>
      simp only [Get_applyCustomHeaders, lastEntryValue_eq_none l _ (hcustom l hc hp), Get_Set,
        if_true]

theorem profile_title_wrapped_witness :
    ∃ rest,
      (ApplyCommonHeaders (exampleDeps [] none) [] (lit "upload=0") (lit "10") (lit "My Panel")
          jsonTwice).Get (lit "Profile-Title") = lit "base64:" ++ rest ∧
      rest = EncodeToString (lit "My Panel") ∧
      DecodeString rest = some (lit "My Panel") :=
  profile_title_wrapped (exampleDeps [] none) [] (lit "upload=0") (lit "10") (lit "My Panel")
    jsonTwice (by decide) (by
      intro l _ hl
      have : l = [[(lit "name", lit "X-Test"), (lit "value", lit "1")],
                  [(lit "name", lit "X-Test"), (lit "value", lit "2")]] :=
        Option.some.inj (hl.symm.trans (by decide))
      subst this
      decide)

/-- C6 (counterexample). With the custom-headers list `X-Test: 1`, `x-test: 2`, the last
entry whose name is `X-Test` has value `1`, but the response value for `X-Test` after
`ApplyCommonHeaders` is `2`: `Header.Set` stores both entries under the canonical key. -/
theorem custom_header_names_are_canonicalised :
    (exampleDeps [] none).jsonUnmarshal jsonMixedCase
      = some [[(lit "name", lit "X-Test"), (lit "value", lit "1")],
              [(lit "name", lit "x-test"), (lit "value", lit "2")]] ∧
    lastNamedValue [[(lit "name", lit "X-Test"), (lit "value", lit "1")],
                    [(lit "name", lit "x-test"), (lit "value", lit "2")]] (lit "X-Test")
      = some (lit "1") ∧
    (ApplyCommonHeaders (exampleDeps [] none) [] (lit "upload=0") (lit "10") (lit "My Panel")
        jsonMixedCase).Get (lit "X-Test") = lit "2" := by
  decide

/-- C6 (amended). After `ApplyCommonHeaders` with a non-empty custom-headers
configuration that parses as the list `l`, for every header name `n`: if some entry of
`l` has a non-empty name with the canonical MIME form of `n`, the response value for `n`
is the value of the last such entry (last applied wins, also for `Subscription-Userinfo`,
`Profile-Update-Interval` and `Profile-Title`); otherwise, entries with an empty name
setting nothing, the value for `n` is the one the same call gives without custom
headers. A name that occurs non-empty in `l` always has such an entry. -/
theorem custom_headers_last_wins (d : Deps) (h : Header)
    (header updateInterval profileTitle customHeadersJSON : GoString)
    (l : List (List (GoString × GoString))) (n : GoString)
    (hne : customHeadersJSON ≠ []) (hparse : d.jsonUnmarshal customHeadersJSON = some l) :
    (ApplyCommonHeaders d h header updateInterval profileTitle customHeadersJSON).Get n =
        (match lastEntryValue l n with
         | some v => v
         | none => (ApplyCommonHeaders d h header updateInterval profileTitle []).Get n) ∧
      ((∃ e ∈ l, mapIndex e (lit "name") = n ∧ n ≠ []) → (lastEntryValue l n).isSome = true) := by
  constructor
  · have hcb : (customHeadersJSON != []) = true := by simpa using hne
    unfold ApplyCommonHeaders
    simp only [hcb, if_true, hparse, Get_applyCustomHeaders, bne_self_eq_false,
      Bool.false_eq_true, if_false]
  · rintro ⟨e, he, hname, hn⟩
    subst hname
    refine lastEntryValue_isSome l _ e he ?_
    have : (mapIndex e (lit "name") != []) = true := by simpa using hn
    simp [entryMatches, this]

theorem custom_headers_last_wins_witness :
    (ApplyCommonHeaders (exampleDeps [] none) [] (lit "upload=0") (lit "10") (lit "My Panel")
        jsonTwice).Get (lit "X-Test") = lit "2" := by
  have hw := (custom_headers_last_wins (exampleDeps [] none) [] (lit "upload=0") (lit "10")
    (lit "My Panel") jsonTwice
    [[(lit "name", lit "X-Test"), (lit "value", lit "1")],
     [(lit "name", lit "X-Test"), (lit "value", lit "2")]] (lit "X-Test")
    (by decide) (by decide)).1
  exact hw.trans (by decide)

end Sub

namespace Sub

/-! ## Lemmas on `Start` and `Stop` -/

@[simp] theorem run_pure {α : Type} (a : α) (st : Server × List Event) :
    (pure a : Action α).run st = (st, .ok a) := rfl

@[simp] theorem run_bind {α β : Type} (m : Action α) (f : α → Action β) (st : Server × List Event) :
    (m >>= f).run st =
      match m.run st with
      | (st1, .ok a) => (f a).run st1
      | (st1, .error e) => (st1, .error e)
      | (st1, .panic msg) => (st1, .panic msg) := rfl

@[simp] theorem run_lookup {α : Type} (name : String) (r : Except Error α) (st : Server × List Event) :
    (lookup name r).run st = ((st.1, st.2 ++ [Event.lookup name]), Outcome.ofExcept r) := rfl

@[simp] theorem run_lookupOr {α : Type} (name : String) (r : Except Error α) (fb : α)
    (st : Server × List Event) :
    (lookupOr name r fb).run st = ((st.1, st.2 ++ [Event.lookup name]), .ok (valueOr r fb)) := rfl

@[simp] theorem run_emit (ev : Event) (st : Server × List Event) :
    (emit ev).run st = ((st.1, st.2 ++ [ev]), .ok ()) := rfl

@[simp] theorem run_setServer (f : Server → Server) (st : Server × List Event) :
    (setServer f).run st = ((f st.1, st.2), .ok ()) := rfl

@[simp] theorem run_GET (env : Env) (routes : List Route) (r : Route) (st : Server × List Event) :
    (GET env routes r).run st =
      ((st.1, st.2 ++ [Event.route r]),
        match routePanic env routes r with
        | some msg => .panic msg
        | none => .ok (routes ++ [r])) := rfl

@[simp] theorem ofExcept_ok {α : Type} (v : α) : Outcome.ofExcept (.ok v : Except Error α) = .ok v :=
  rfl

@[simp] theorem ofExcept_error {α : Type} (e : Error) :
    Outcome.ofExcept (.error e : Except Error α) = .error e := rfl

theorem any_isListen_routes (rs : List Route) :
    (rs.map Event.route).any Event.isListen = false := by
  induction rs with
  | nil => rfl
  | cons r rs ih => simp [Event.isListen, ih]

theorem any_isListen_lookups (t : List Event) (h : t.all Event.isLookup = true) :
    t.any Event.isListen = false := by
  induction t with
  | nil => rfl
  | cons x xs ih =>
    simp only [List.all_cons, Bool.and_eq_true] at h
    cases x <;> simp_all [Event.isListen, Event.isLookup]

theorem dropWhile_of_no_listen (t : List Event) (h : t.any Event.isListen = false) :
    (t.dropWhile (fun ev => !ev.isListen)).any Event.isLookup = false := by
  induction t with
  | nil => rfl
  | cons x xs ih =>
    simp only [List.any_cons, Bool.or_eq_false_iff] at h
    simp [List.dropWhile, h.1, ih h.2]

theorem dropWhile_listen_last (t : List Event) (addr : GoString)
    (h : t.any Event.isListen = false) :
    ((t ++ [Event.listen addr]).dropWhile (fun ev => !ev.isListen)).any Event.isLookup
      = false := by
  induction t with
  | nil => rfl
  | cons x xs ih =>
    simp only [List.any_cons, Bool.or_eq_false_iff] at h
    simp [List.dropWhile, h.1, ih h.2]

theorem initRouter_cases (env : Env) (st : Server × List Event) :
    (∃ e tl, (initRouter env).run st = ((st.1, st.2 ++ tl), .error e) ∧
      tl.all Event.isLookup = true ∧
      ∀ b, env.GetSubEnable = .ok b →
        firstError (fatalOutcomes env) = some e ∧
        firstError (fatalOutcomes env).dropLast = some e) ∨
    (∃ msg LinksPath JsonPath jsonEnable, ((initRouter env).run st).2 = .panic msg ∧
      env.GetSubPath = .ok LinksPath ∧ env.GetSubJsonPath = .ok JsonPath ∧
      env.GetSubJsonEnable = .ok jsonEnable ∧
      routesAccepted env LinksPath JsonPath jsonEnable = false) ∨
    (∃ engine subDomain LinksPath JsonPath jsonEnable Encrypt ShowInfo,
      env.GetSubDomain = .ok subDomain ∧ env.GetSubPath = .ok LinksPath ∧
      env.GetSubJsonPath = .ok JsonPath ∧ env.GetSubJsonEnable = .ok jsonEnable ∧
      env.GetSubEncrypt = .ok Encrypt ∧ env.GetSubShowInfo = .ok ShowInfo ∧
      routesAccepted env LinksPath JsonPath jsonEnable = true ∧
      (initRouter env).run st =
        (({ st.1 with sub := some engine.controller },
          st.2 ++ routerLookups ++ engine.routes.map Event.route), .ok engine)) := by
  unfold initRouter NewSUBController SUBController.initRouter
  simp only [run_bind, run_lookup, run_lookupOr, run_emit, run_setServer, run_pure, run_GET]
  rcases h1 : env.GetSubDomain with e1 | v1
  · refine Or.inl ⟨e1, [Event.lookup "GetSubDomain"], rfl, rfl, ?_⟩
    intro b h0
    simp [firstError, fatalOutcomes, errOf, h0, h1]
  rcases h2 : env.GetSubPath with e2 | v2
  · refine Or.inl ⟨e2, [Event.lookup "GetSubDomain", Event.lookup "GetSubPath"],
      by simp, rfl, ?_⟩
    intro b h0
    simp [firstError, fatalOutcomes, errOf, h0, h1, h2]
  rcases h3 : env.GetSubJsonPath with e3 | v3
  · refine Or.inl ⟨e3, [Event.lookup "GetSubDomain", Event.lookup "GetSubPath",
      Event.lookup "GetSubJsonPath"], by simp, rfl, ?_⟩
    intro b h0
    simp [firstError, fatalOutcomes, errOf, h0, h1, h2, h3]
  rcases h4 : env.GetSubJsonEnable with e4 | v4
  · refine Or.inl ⟨e4, [Event.lookup "GetSubDomain", Event.lookup "GetSubPath",
      Event.lookup "GetSubJsonPath", Event.lookup "GetSubJsonEnable"], by simp, rfl, ?_⟩
    intro b h0
    simp [firstError, fatalOutcomes, errOf, h0, h1, h2, h3, h4]
  rcases h5 : env.GetSubEncrypt with e5 | v5
  · refine Or.inl ⟨e5, [Event.lookup "GetSubDomain", Event.lookup "GetSubPath",
      Event.lookup "GetSubJsonPath", Event.lookup "GetSubJsonEnable",
      Event.lookup "GetSubEncrypt"], by simp, rfl, ?_⟩
    intro b h0
    simp [firstError, fatalOutcomes, errOf, h0, h1, h2, h3, h4, h5]
  rcases h6 : env.GetSubShowInfo with e6 | v6
  · refine Or.inl ⟨e6, [Event.lookup "GetSubDomain", Event.lookup "GetSubPath",
      Event.lookup "GetSubJsonPath", Event.lookup "GetSubJsonEnable",
      Event.lookup "GetSubEncrypt", Event.lookup "GetSubShowInfo"], by simp, rfl, ?_⟩
    intro b h0
    simp [firstError, fatalOutcomes, errOf, h0, h1, h2, h3, h4, h5, h6]
  simp only [ofExcept_ok]
  generalize hctrl : controllerLiteral v2 v3 v4 v5 v6 _ _ _ _ _ _ _ _ _ = ctrl
  have hp : ctrl.subPath = v2 := by rw [← hctrl]; rfl
  have hj : ctrl.subJsonPath = v3 := by rw [← hctrl]; rfl
  have hje : ctrl.jsonEnabled = v4 := by rw [← hctrl]; rfl
  rw [hp, hj, hje]
  rcases hr1 : routePanic env [] (linkRoute v2) with _ | m1
  · cases v4
    · refine Or.inr (Or.inr ⟨Engine.mk v1 (routerBasePath v2) ctrl [linkRoute v2],
        v1, v2, v3, false, v5, v6, rfl, rfl, rfl, rfl, rfl, rfl, ?_, ?_⟩)
      · simp [routesAccepted, hr1]
      · simp [routerLookups]
    · rcases hr2 : routePanic env [linkRoute v2] (jsonRoute v3) with _ | m2
      · refine Or.inr (Or.inr ⟨Engine.mk v1 (routerBasePath v2) ctrl
          [linkRoute v2, jsonRoute v3], v1, v2, v3, true, v5, v6,
          rfl, rfl, rfl, rfl, rfl, rfl, ?_, ?_⟩)
        · simp [routesAccepted, hr1, hr2]
        · simp [routerLookups, hr2]
      · refine Or.inr (Or.inl ⟨m2, v2, v3, true, ?_, rfl, rfl, rfl, ?_⟩)
        · simp [hr2]
        · simp [routesAccepted, hr1, hr2]
  · refine Or.inr (Or.inl ⟨m1, v2, v3, v4, rfl, rfl, rfl, rfl, ?_⟩)
    simp [routesAccepted, hr1]

theorem run_tlsStep (env : Env) (certFile keyFile addr : GoString) (st : Server × List Event) :
    ∃ L tl, (tlsStep env certFile keyFile (.tcp addr)).run st = ((st.1, st.2 ++ tl), .ok L) ∧
      tlsCase env certFile keyFile addr L tl := by
  unfold tlsStep tlsCase
  by_cases hc : certFile = [] ∧ keyFile = []
  · obtain ⟨h1, h2⟩ := hc
    subst h1 h2
    exact ⟨_, _, rfl, Or.inl ⟨rfl, rfl, rfl, rfl⟩⟩
  · have hc2 : certFile ≠ [] ∨ keyFile ≠ [] := by
      by_cases h1 : certFile = []
      · exact Or.inr (fun h2 => hc ⟨h1, h2⟩)
      · exact Or.inl h1
    have hb : (certFile != [] || keyFile != []) = true := by
      rcases hc2 with h | h <;> simp [h]
    simp only [hb, if_true, run_bind, run_emit]
    rcases hl : LoadX509KeyPair env certFile keyFile with err | cert
    · exact ⟨_, _, by simp [run_bind, run_emit, run_pure], Or.inr (Or.inl ⟨hc2, err, rfl, rfl, rfl⟩)⟩
    · exact ⟨_, _, by simp [run_bind, run_emit, run_pure], Or.inr (Or.inr ⟨hc2, cert, rfl, rfl, rfl⟩)⟩

theorem any_isListen_snoc_lookup (t : List Event) (name : String)
    (h : t.any Event.isListen = false) :
    (t ++ [Event.lookup name]).any Event.isListen = false := by
  simp [List.any_append, h, Event.isListen]

theorem any_isListen_router_events (engine : Engine) :
    ([Event.lookup "GetSubEnable"] ++ routerLookups ++ engine.routes.map Event.route).any
      Event.isListen = false := by
  rw [List.any_append, any_isListen_routes]
  rfl

theorem LoadX509KeyPair_empty (env : Env) (certFile keyFile : GoString)
    (h : certFile = [] ∨ keyFile = []) :
    ∃ err, LoadX509KeyPair env certFile keyFile = .error err := by
  unfold LoadX509KeyPair
  by_cases hc : certFile = []
  · subst hc
    exact ⟨_, rfl⟩
  · have hk : keyFile = [] := h.resolve_left hc
    subst hk
    cases hr : ReadFile env certFile with
    | error e => exact ⟨e, rfl⟩
    | ok b => exact ⟨_, rfl⟩

theorem startBody_cases (env : Env) :
    (∃ e, ((startBody env).run (NewServer, [])).2 = .error e ∧
      firstError (fatalOutcomes env) = some e ∧
      ((startBody env).run (NewServer, [])).1.1.listener = none ∧
      ((startBody env).run (NewServer, [])).1.1.httpServer = none ∧
      ((startBody env).run (NewServer, [])).1.1.ctxDone = false ∧
      ((((startBody env).run (NewServer, [])).1.2.dropWhile (fun ev => !ev.isListen)).any Event.isLookup = false) ∧
      (firstError (fatalOutcomes env).dropLast = some e →
        ((startBody env).run (NewServer, [])).1.2.any Event.isListen = false)) ∨
    (env.GetSubEnable = .ok false ∧
      (startBody env).run (NewServer, []) = ((NewServer, [Event.lookup "GetSubEnable"]), .ok ())) ∨
    (∃ msg LinksPath JsonPath jsonEnable, ((startBody env).run (NewServer, [])).2 = .panic msg ∧
      env.GetSubPath = .ok LinksPath ∧ env.GetSubJsonPath = .ok JsonPath ∧
      env.GetSubJsonEnable = .ok jsonEnable ∧
      routesAccepted env LinksPath JsonPath jsonEnable = false) ∨
    (env.GetSubEnable = .ok true ∧ firstError (fatalOutcomes env) = none ∧
      ∃ certFile keyFile listen port engine L tl,
        env.GetSubCertFile = .ok certFile ∧ env.GetSubKeyFile = .ok keyFile ∧
        env.GetSubListen = .ok listen ∧ env.GetSubPort = .ok port ∧
        tlsCase env certFile keyFile (JoinHostPort listen (fmtInt port)) L tl ∧
        (startBody env).run (NewServer, []) =
          ((Server.mk (some (HttpServer.mk engine)) (some L) (some engine.controller) false,
            startEvents engine (JoinHostPort listen (fmtInt port)) ++ tl ++ [Event.serve L]),
            .ok ())) := by
  unfold startBody
  simp only [run_bind, run_lookup]
  rcases h0 : env.GetSubEnable with e0 | b
  · refine Or.inl ⟨e0, ?_, ?_, ?_, ?_, ?_, ?_, ?_⟩ <;>
      simp [firstError, fatalOutcomes, errOf, h0, NewServer, Event.isLookup, Event.isListen]
  cases b
  · exact Or.inr (Or.inl ⟨rfl, rfl⟩)
  simp only [ofExcept_ok, Bool.not_true, Bool.false_eq_true, if_false, run_bind, run_lookup,
    run_emit, run_setServer, run_pure, List.nil_append]
  rcases initRouter_cases env (NewServer, [Event.lookup "GetSubEnable"]) with
    ⟨e, tl, hrun, htl, hfe⟩ | ⟨msg, lp, jp, je, hrun, hlp, hjp, hje, hacc⟩ |
    ⟨engine, v1, v2, v3, v4, v5, v6, h1, h2, h3, h4, h5, h6, hacc, hrun⟩
  · rw [hrun]
    have hnl := any_isListen_lookups tl htl
    refine Or.inl ⟨e, rfl, (hfe true h0).1, rfl, rfl, rfl, ?_, ?_⟩
    · exact dropWhile_of_no_listen _ (by simp [List.any_append, hnl, Event.isListen])
    · intro _
      simp [List.any_append, hnl, Event.isListen]
  · rcases hr : (initRouter env).run (NewServer, [Event.lookup "GetSubEnable"]) with ⟨st1, o⟩
    rw [hr] at hrun
    simp only at hrun
    subst hrun
    exact Or.inr (Or.inr (Or.inl ⟨msg, lp, jp, je, rfl, hlp, hjp, hje, hacc⟩))
  rw [hrun]
  dsimp only
  have hpre := any_isListen_router_events engine
  rcases h7 : env.GetSubCertFile with e7 | v7
  · refine Or.inl ⟨e7, rfl, ?_, rfl, rfl, rfl, ?_, ?_⟩
    · simp [firstError, fatalOutcomes, errOf, h0, h1, h2, h3, h4, h5, h6, h7]
    · exact dropWhile_of_no_listen _
        (by repeat (first | exact hpre | apply any_isListen_snoc_lookup))
    · intro _
      repeat (first | exact hpre | apply any_isListen_snoc_lookup)
  simp only [ofExcept_ok]
  rcases h8 : env.GetSubKeyFile with e8 | v8
  · refine Or.inl ⟨e8, rfl, ?_, rfl, rfl, rfl, ?_, ?_⟩
    · simp [firstError, fatalOutcomes, errOf, h0, h1, h2, h3, h4, h5, h6, h7, h8]
    · exact dropWhile_of_no_listen _
        (by repeat (first | exact hpre | apply any_isListen_snoc_lookup))
    · intro _
      repeat (first | exact hpre | apply any_isListen_snoc_lookup)
  simp only [ofExcept_ok]
  rcases h9 : env.GetSubListen with e9 | v9
  · refine Or.inl ⟨e9, rfl, ?_, rfl, rfl, rfl, ?_, ?_⟩
    · simp [firstError, fatalOutcomes, errOf, h0, h1, h2, h3, h4, h5, h6, h7, h8, h9]
    · exact dropWhile_of_no_listen _
        (by repeat (first | exact hpre | apply any_isListen_snoc_lookup))
    · intro _
      repeat (first | exact hpre | apply any_isListen_snoc_lookup)
  simp only [ofExcept_ok]
  rcases h10 : env.GetSubPort with e10 | v10
  · refine Or.inl ⟨e10, rfl, ?_, rfl, rfl, rfl, ?_, ?_⟩
    · simp [firstError, fatalOutcomes, errOf, h0, h1, h2, h3, h4, h5, h6, h7, h8, h9, h10]
    · exact dropWhile_of_no_listen _
        (by repeat (first | exact hpre | apply any_isListen_snoc_lookup))
    · intro _
      repeat (first | exact hpre | apply any_isListen_snoc_lookup)
  simp only [ofExcept_ok]
  rcases hb : env.Listen (JoinHostPort v9 (fmtInt v10)) with _ | eb
  · obtain ⟨L, tl, hrun2, hcase⟩ := run_tlsStep env v7 v8 (JoinHostPort v9 (fmtInt v10))
      (Server.mk none none (some engine.controller) false,
        startEvents engine (JoinHostPort v9 (fmtInt v10)))
    refine Or.inr (Or.inr (Or.inr ⟨trivial, ?_, v7, v8, v9, v10, engine, L, tl,
      rfl, rfl, rfl, rfl, hcase, ?_⟩))
    · simp [firstError, fatalOutcomes, errOf, h0, h1, h2, h3, h4, h5, h6, h7, h8, h9, h10, hb]
    · simp only [run_bind, run_emit, run_setServer, run_pure]
      simp only [startEvents, addressLookups, routerLookups, NewServer, List.map,
        List.nil_append, List.cons_append, List.append_assoc, List.singleton_append]
        at hrun2 ⊢
      rw [hrun2]
      simp
  · refine Or.inl ⟨eb, rfl, ?_, rfl, rfl, rfl, ?_, ?_⟩
    · simp [firstError, fatalOutcomes, errOf, h0, h1, h2, h3, h4, h5, h6, h7, h8, h9, h10, hb]
    · exact dropWhile_listen_last _ _
        (by repeat (first | exact hpre | apply any_isListen_snoc_lookup))
    · intro hd
      simp [firstError, fatalOutcomes, errOf, h0, h1, h2, h3, h4, h5, h6, h7, h8, h9, h10]
        at hd

theorem Start_eq_of_error (env : Env) (st : Server × List Event) (e : Error)
    (h : ((startBody env).run st).2 = .error e) :
    Start env st = ((Stop env ((startBody env).run st).1).1, .error e) := by
  unfold Start
  rcases hr : (startBody env).run st with ⟨st1, u | e1 | m⟩ <;> rw [hr] at h <;> cases h
  all_goals rfl

theorem Start_eq_of_ok (env : Env) (st : Server × List Event) (u : Unit)
    (h : ((startBody env).run st).2 = .ok u) :
    Start env st = (((startBody env).run st).1, .ok ()) := by
  unfold Start
  rcases hr : (startBody env).run st with ⟨st1, u | e1 | m⟩ <;> rw [hr] at h <;> cases h

theorem Start_eq_of_panic (env : Env) (st : Server × List Event) (msg : String)
    (h : ((startBody env).run st).2 = .panic msg) :
    Start env st = (((startBody env).run st).1, .panic msg) := by
  unfold Start
  rcases hr : (startBody env).run st with ⟨st1, u | e1 | m⟩ <;> rw [hr] at h <;> cases h
  all_goals rfl

theorem Stop_of_none (env : Env) (st : Server × List Event)
    (hh : st.1.httpServer = none) (hl : st.1.listener = none) :
    Stop env st = (({ st.1 with ctxDone := true }, st.2 ++ [Event.cancel]), none) := by
  simp [Stop, hh, hl, Combine]

theorem Stop_of_some (env : Env) (st : Server × List Event) (hs : HttpServer) (l : Listener)
    (hh : st.1.httpServer = some hs) (hl : st.1.listener = some l) :
    Stop env st =
      (({ st.1 with ctxDone := true }, st.2 ++ [Event.cancel, Event.shutdown, Event.close l]),
        Combine [env.Shutdown (st.2 ++ [Event.cancel]),
                 env.Close (st.2 ++ [Event.cancel, Event.shutdown]) l]) := by
  simp [Stop, hh, hl]

theorem any_lookup_after_listen_append_cancel (t : List Event) :
    ((t ++ [Event.cancel]).dropWhile (fun ev => !ev.isListen)).any Event.isLookup
      = (t.dropWhile (fun ev => !ev.isListen)).any Event.isLookup := by
  induction t with
  | nil => rfl
  | cons x xs ih =>
    by_cases hx : x.isListen = true
    · simp [List.dropWhile, hx, List.any_append, Event.isLookup]
    · have : x.isListen = false := by simpa using hx
      simpa [List.dropWhile, this] using ih

theorem Stop_twice_of_some (env : Env) (st : Server × List Event) (hs : HttpServer)
    (l : Listener) (hh : st.1.httpServer = some hs) (hl : st.1.listener = some l) :
    (Stop env (Stop env st).1).1.2
        = st.2 ++ [Event.cancel, Event.shutdown, Event.close l,
                   Event.cancel, Event.shutdown, Event.close l] ∧
      (Stop env (Stop env st).1).1.1 = (Stop env st).1.1 ∧
      (Stop env st).1.1 = { st.1 with ctxDone := true } ∧
      (Stop env (Stop env st).1).2
        = Combine [env.Shutdown ((Stop env st).1.2 ++ [Event.cancel]),
                   env.Close ((Stop env st).1.2 ++ [Event.cancel, Event.shutdown]) l] := by
  have h1 := Stop_of_some env st hs l hh hl
  have h2 := Stop_of_some env (Stop env st).1 hs l (by rw [h1]; exact hh) (by rw [h1]; exact hl)
  refine ⟨?_, ?_, ?_, ?_⟩
  · rw [h2, h1]
    simp
  · rw [h2, h1]
  · rw [h1]
  · rw [h2]

theorem Start_success_form (env : Env) (hen : env.GetSubEnable = .ok true)
    (hok : (Start env (NewServer, [])).2 = .ok ()) :
    ∃ l hs t1, Start env (NewServer, [])
        = ((Server.mk (some hs) (some l) (some hs.Handler.controller) false, t1), .ok ()) ∧
      t1.count Event.shutdown = 0 ∧ t1.count (Event.close l) = 0 := by
  rcases startBody_cases env with ⟨e1, hr, _⟩ | ⟨hdis, _⟩ | ⟨msg, _, _, _, hr, _⟩ |
    ⟨_, _, c, k, li, po, engine, L, tl, _, _, _, _, hcase, hr⟩
  · rw [Start_eq_of_error env _ e1 hr] at hok
    cases hok
  · rw [hen] at hdis
    cases hdis
  · rw [Start_eq_of_panic env _ msg hr] at hok
    cases hok
  · refine ⟨L, { Handler := engine },
      startEvents engine (JoinHostPort li (fmtInt po)) ++ tl ++ [Event.serve L], ?_, ?_, ?_⟩
    · rw [Start_eq_of_ok env _ () (by rw [hr]), hr]
    · rw [List.count_eq_zero]
      rcases hcase with ⟨_, _, _, htl⟩ | ⟨_, _, _, _, htl⟩ | ⟨_, _, _, _, htl⟩ <;>
        subst htl <;> simp [startEvents, routerLookups, addressLookups]
    · rw [List.count_eq_zero]
      rcases hcase with ⟨_, _, _, htl⟩ | ⟨_, _, _, _, htl⟩ | ⟨_, _, _, _, htl⟩ <;>
        subst htl <;> simp [startEvents, routerLookups, addressLookups]

end Sub

namespace Sub

/-! ## `Server.Start` and `Server.Stop` -/

/-- C9. For every outcome of the setting lookups and of the socket bind, whenever
`Start` (on a new server) returns an error, it is the first error, in program order, of
the calls whose failure `Start` returns; `Stop` has run before `Start` returns (its
`cancel` is the last event and the lifetime context is cancelled); the server holds
no listener and no HTTP server afterwards; no lookup follows the bind; and when the error
is that of a setting lookup, no bind was attempted. -/
theorem Start_error_is_first_and_stops (env : Env) (e : Error)
    (h : (Start env (NewServer, [])).2 = .error e) :
    firstError (fatalOutcomes env) = some e ∧
    (Start env (NewServer, [])).1.2.getLast? = some Event.cancel ∧
    (Start env (NewServer, [])).1.1.ctxDone = true ∧
    (Start env (NewServer, [])).1.1.listener = none ∧
    (Start env (NewServer, [])).1.1.httpServer = none ∧
    (((Start env (NewServer, [])).1.2.dropWhile (fun ev => !ev.isListen)).any Event.isLookup
      = false) ∧
    (firstError (fatalOutcomes env).dropLast = some e →
      (Start env (NewServer, [])).1.2.any Event.isListen = false) := by
  rcases startBody_cases env with ⟨e1, hr, hfirst, hl, hh, _, hord, hnobind⟩ | ⟨_, hr⟩ |
    ⟨msg, _, _, _, hr, _⟩ | ⟨_, _, _, _, _, _, _, _, _, _, _, _, _, _, hr⟩
  · have hS := Start_eq_of_error env _ e1 hr
    rw [hS] at h ⊢
    have he : e1 = e := by
      cases h
      rfl
    subst he
    rw [Stop_of_none env _ hh hl]
    refine ⟨hfirst, by simp, rfl, hl, hh, ?_, ?_⟩
    · rw [any_lookup_after_listen_append_cancel]
      exact hord
    · intro hd
      simpa [List.any_append, Event.isListen] using hnobind hd
  · rw [Start_eq_of_ok env _ () (by rw [hr])] at h
    cases h
  · rw [Start_eq_of_panic env _ msg hr] at h
    cases h
  · rw [Start_eq_of_ok env _ () (by rw [hr])] at h
    cases h

theorem Start_error_is_first_and_stops_witness :
    (Start failingEnv (NewServer, [])).2 = .error (.mk "record not found") ∧
    firstError (fatalOutcomes failingEnv) = some (.mk "record not found") ∧
    (Start failingEnv (NewServer, [])).1.1.ctxDone = true ∧
    (Start failingEnv (NewServer, [])).1.2.any Event.isListen = false :=
  have hw := Start_error_is_first_and_stops failingEnv (.mk "record not found") (by decide)
  ⟨by decide, hw.1, hw.2.2.1, hw.2.2.2.2.2.2 (by decide)⟩

/-- C7 (counterexample). With the certificate path `/root/cert.crt` and an empty key
path, `Start` calls `tls.LoadX509KeyPair("/root/cert.crt", "")`: the load is attempted
although one of the two paths is empty. -/
theorem Start_loads_key_pair_with_one_path_empty :
    (Start (exampleEnv (lit "/root/cert.crt") []) (NewServer, [])).1.2.contains
        (Event.loadX509KeyPair (lit "/root/cert.crt") []) = true ∧
    (Start (exampleEnv (lit "/root/cert.crt") []) (NewServer, [])).1.2.any Event.isLoad = true := by
  decide

/-- C7 (amended). In `Start`, when the feature is enabled, every lookup and the bind
succeed and gin accepts the routes, `Start` succeeds, and loading of the TLS key pair is
attempted if and only if at least one of the certificate path and the key path is
non-empty. For every pair of paths where either one is empty the listener stays the
plain TCP listener (no auto-HTTPS or TLS wrapping): with both empty no load is attempted,
with one empty the attempted load fails. The listener also stays plain whenever the
load fails, and when the load succeeds the TCP listener is wrapped by the auto-HTTPS
listener and then by TLS. -/
theorem Start_tls_step (env : Env) (LinksPath JsonPath : GoString) (jsonEnable : Bool)
    (certFile keyFile listen : GoString) (port : Int)
    (hen : env.GetSubEnable = .ok true) (hok : firstError (fatalOutcomes env) = none)
    (hpath : env.GetSubPath = .ok LinksPath) (hjson : env.GetSubJsonPath = .ok JsonPath)
    (hje : env.GetSubJsonEnable = .ok jsonEnable)
    (hroutes : routesAccepted env LinksPath JsonPath jsonEnable = true)
    (hcert : env.GetSubCertFile = .ok certFile) (hkey : env.GetSubKeyFile = .ok keyFile)
    (hlisten : env.GetSubListen = .ok listen) (hport : env.GetSubPort = .ok port) :
    (Start env (NewServer, [])).2 = .ok () ∧
    ((Start env (NewServer, [])).1.2.any Event.isLoad = true ↔ (certFile ≠ [] ∨ keyFile ≠ [])) ∧
    ((certFile = [] ∨ keyFile = []) →
      (Start env (NewServer, [])).1.1.listener
        = some (.tcp (JoinHostPort listen (fmtInt port)))) ∧
    (∀ err, LoadX509KeyPair env certFile keyFile = .error err →
      (Start env (NewServer, [])).1.1.listener
        = some (.tcp (JoinHostPort listen (fmtInt port)))) ∧
    (∀ cert, LoadX509KeyPair env certFile keyFile = .ok cert →
      (Start env (NewServer, [])).1.1.listener
        = some (.tls (.autoHttps (.tcp (JoinHostPort listen (fmtInt port)))) cert)) := by
  rcases startBody_cases env with ⟨e1, _, hfirst, _⟩ | ⟨hdis, _⟩ |
    ⟨msg, lp, jp, je, _, hlp, hjp, hjep, hrej⟩ |
    ⟨_, _, c, k, li, po, engine, L, tl, hc, hk, hli, hpo, hcase, hr⟩
  · rw [hok] at hfirst
    cases hfirst
  · rw [hen] at hdis
    cases hdis
  · rw [hpath] at hlp
    rw [hjson] at hjp
    rw [hje] at hjep
    cases hlp
    cases hjp
    cases hjep
    rw [hroutes] at hrej
    cases hrej
  · rw [hcert] at hc
    rw [hkey] at hk
    rw [hlisten] at hli
    rw [hport] at hpo
    cases hc
    cases hk
    cases hli
    cases hpo
    rw [Start_eq_of_ok env _ () (by rw [hr]), hr]
    have hfails : (certFile = [] ∨ keyFile = []) →
        L = .tcp (JoinHostPort listen (fmtInt port)) := by
      intro hemp
      obtain ⟨err, herr⟩ := LoadX509KeyPair_empty env certFile keyFile hemp
      rcases hcase with ⟨_, _, hL, _⟩ | ⟨_, _, _, hL, _⟩ | ⟨_, cert, hload, _⟩
      · exact hL
      · exact hL
      · rw [herr] at hload
        cases hload
    refine ⟨rfl, ?_, ?_, ?_, ?_⟩
    · rcases hcase with ⟨h1, h2, _, htl⟩ | ⟨hne, _, _, _, htl⟩ | ⟨hne, _, _, _, htl⟩
      · subst htl
        simp [startEvents, routerLookups, addressLookups, List.any_append, Event.isLoad, h1, h2]
      · subst htl
        simpa [startEvents, routerLookups, addressLookups, List.any_append, Event.isLoad]
          using hne
      · subst htl
        simpa [startEvents, routerLookups, addressLookups, List.any_append, Event.isLoad]
          using hne
    · intro hemp
      rw [hfails hemp]
    · intro err herr
      rcases hcase with ⟨_, _, hL, _⟩ | ⟨_, _, _, hL, _⟩ | ⟨_, cert, hload, _⟩
      · rw [hL]
      · rw [hL]
      · rw [herr] at hload
        cases hload
    · intro cert hload
      rcases hcase with ⟨h1, _, _⟩ | ⟨_, err, herr, _⟩ | ⟨_, cert2, hload2, hL, _⟩
      · obtain ⟨err, herr⟩ := LoadX509KeyPair_empty env certFile keyFile (Or.inl h1)
        rw [hload] at herr
        cases herr
      · rw [hload] at herr
        cases herr
      · rw [hload] at hload2
        cases hload2
        rw [hL]

theorem Start_tls_step_witness :
    (Start (exampleEnv (lit "/root/cert.crt") []) (NewServer, [])).2 = .ok () ∧
    (Start (exampleEnv (lit "/root/cert.crt") []) (NewServer, [])).1.2.any Event.isLoad = true ∧
    (Start (exampleEnv (lit "/root/cert.crt") []) (NewServer, [])).1.1.listener
      = some (.tcp (lit ":2096")) := by
  have hw := Start_tls_step (exampleEnv (lit "/root/cert.crt") []) (lit "/sub/") (lit "/json/")
    false (lit "/root/cert.crt") [] [] 2096 rfl (by decide) rfl rfl rfl (by decide) rfl rfl
    rfl rfl
  exact ⟨hw.1, hw.2.1.mpr (Or.inl (by decide)), (hw.2.2.1 (Or.inr rfl)).trans (by decide)⟩

/-- C8 (counterexample). For the started example server, two successive calls of `Stop`
close the listener twice and shut the HTTP layer down twice, and the second call
returns the error of its second close. -/
theorem Stop_twice_closes_twice :
    (Start (exampleEnv [] []) (NewServer, [])).2 = .ok () ∧
    (Stop (exampleEnv [] []) (Stop (exampleEnv [] [])
        (Start (exampleEnv [] []) (NewServer, [])).1).1).1.2.count
        (Event.close (.tcp (lit ":2096"))) = 2 ∧
    (Stop (exampleEnv [] []) (Stop (exampleEnv [] [])
        (Start (exampleEnv [] []) (NewServer, [])).1).1).1.2.count Event.shutdown = 2 ∧
    (Stop (exampleEnv [] []) (Stop (exampleEnv [] [])
        (Start (exampleEnv [] []) (NewServer, [])).1).1).2
      = some (.multi ["use of closed network connection"]) := by
  decide

/-- C8 (amended). `Stop` leaves the `httpServer` and `listener` fields of the server
set. For every server started with success (feature enabled), two successive calls of
`Stop` cancel the context, shut the HTTP layer down and close the listener once per
call, twice in total; the server after the second call is the server after the first;
and the second call returns the combination of the errors of its own `Shutdown` and
`Close`. -/
theorem Stop_twice_repeats (env : Env) (hen : env.GetSubEnable = .ok true)
    (hok : (Start env (NewServer, [])).2 = .ok ()) :
    ∃ l, (Start env (NewServer, [])).1.1.listener = some l ∧
      (Start env (NewServer, [])).1.1.httpServer ≠ none ∧
      (Stop env (Stop env (Start env (NewServer, [])).1).1).1.2
        = (Start env (NewServer, [])).1.2
            ++ [Event.cancel, Event.shutdown, Event.close l,
                Event.cancel, Event.shutdown, Event.close l] ∧
      (Stop env (Stop env (Start env (NewServer, [])).1).1).1.2.count Event.shutdown = 2 ∧
      (Stop env (Stop env (Start env (NewServer, [])).1).1).1.2.count (Event.close l) = 2 ∧
      (Stop env (Stop env (Start env (NewServer, [])).1).1).1.1
        = (Stop env (Start env (NewServer, [])).1).1.1 ∧
      (Stop env (Start env (NewServer, [])).1).1.1
        = { (Start env (NewServer, [])).1.1 with ctxDone := true } ∧
      (Stop env (Stop env (Start env (NewServer, [])).1).1).2
        = Combine
            [env.Shutdown ((Stop env (Start env (NewServer, [])).1).1.2 ++ [Event.cancel]),
             env.Close ((Stop env (Start env (NewServer, [])).1).1.2
               ++ [Event.cancel, Event.shutdown]) l] := by
  obtain ⟨l, hs, t1, hS, hc1, hc2⟩ := Start_success_form env hen hok
  have ht1 : (Start env (NewServer, [])).1.2 = t1 := by rw [hS]
  obtain ⟨ht, hst, hst1, herr⟩ := Stop_twice_of_some env (Start env (NewServer, [])).1 hs l
    (by rw [hS]) (by rw [hS])
  refine ⟨l, by rw [hS], by rw [hS]; simp, ht, ?_, ?_, hst, hst1, herr⟩
  · rw [ht, List.count_append, ht1, hc1]
    simp [List.count_cons]
  · rw [ht, List.count_append, ht1, hc2]
    simp [List.count_cons]

theorem Stop_twice_repeats_witness :
    ∃ l, (Start (exampleEnv [] []) (NewServer, [])).1.1.listener = some l ∧
      (Stop (exampleEnv [] []) (Stop (exampleEnv [] [])
          (Start (exampleEnv [] []) (NewServer, [])).1).1).1.2.count (Event.close l) = 2 := by
  obtain ⟨l, h1, _, _, _, h5, _⟩ := Stop_twice_repeats (exampleEnv [] []) rfl (by decide)
  exact ⟨l, h1, h5⟩

end Sub

namespace Sub

/-! ## Base paths -/

theorem HasSuffix_singleton (s : GoString) (c : Byte) :
    HasSuffix s [c] = true ↔ s.getLast? = some c := by
  unfold HasSuffix
  rcases List.eq_nil_or_concat s with h | ⟨l, b, h⟩
  · subst h
    simp only [List.length_nil, List.length_singleton, Nat.le_zero_eq, List.getLast?_nil]
    constructor
    · intro h
      simp at h
    · intro h
      cases h
  · subst h
    rw [List.concat_eq_append]
    have h1 : (l ++ [b]).length - [c].length = l.length := by simp
    rw [h1, List.drop_left, List.getLast?_append]
    simp only [List.length_append, List.length_singleton]
    constructor
    · intro h
      simp only [Bool.and_eq_true, beq_iff_eq, List.cons.injEq, and_true] at h
      simp [h.2]
    · intro h
      simp at h
      subst h
      simp

theorem trimRightWhile_spec (p : Byte → Bool) (s : GoString) :
    ∃ d, s = trimRightWhile p s ++ d ∧ d.all p = true ∧
      ∀ x, (trimRightWhile p s).getLast? = some x → p x = false := by
  induction s with
  | nil => exact ⟨[], rfl, rfl, by simp [trimRightWhile]⟩
  | cons c cs ih =>
    obtain ⟨d, hd, hall, hlast⟩ := ih
    unfold trimRightWhile
    cases hr : trimRightWhile p cs with
    | nil =>
      rw [hr] at hd
      by_cases hc : p c = true
      · refine ⟨c :: cs, by simp [hc], ?_, by simp [hc]⟩
        rw [hd]
        simpa [hc] using hall
      · have hc2 : p c = false := by simpa using hc
        refine ⟨cs, by simp [hc2], ?_, by simp [hc2]⟩
        rw [hd]
        simpa using hall
    | cons r rs =>
      rw [hr] at hd hlast
      refine ⟨d, by simp [hd], hall, ?_⟩
      intro x hx
      apply hlast x
      simpa [List.getLast?_cons_cons] using hx

theorem all_eq_replicate (c : Byte) (d : GoString) (h : d.all (fun x => [c].contains x) = true) :
    d = List.replicate d.length c := by
  induction d with
  | nil => rfl
  | cons x xs ih =>
    simp only [List.all_cons, Bool.and_eq_true] at h
    have hx : x = c := by simpa using h.1
    rw [List.length_cons, List.replicate_succ, ← ih h.2, hx]

/-- C10. The per-subscriber base path computed in `subs` from a request base path `b`
and a subscriber id `s` is `/` + `s` + `/` when `b` is `/`, and in every case is `b`
with its trailing separators stripped (the `t` with `b = t` followed by `/`s only and
`t` not ending in `/`) followed by `/` + `s` + `/`; base path `/` with id `abc` gives
`/abc/`, base path `/links/` with id `abc` gives `/links/abc/`; and for every links
path the base path attached by the router ends with `/`. -/
theorem subBasePath_and_routerBasePath (b s LinksPath : GoString) :
    subBasePath (some (lit "/")) s = lit "/" ++ s ++ lit "/" ∧
    subBasePath none s = lit "/" ++ s ++ lit "/" ∧
    (∃ t k, b = t ++ List.replicate k 47 ∧ HasSuffix t (lit "/") = false ∧
      subBasePath (some b) s = t ++ lit "/" ++ s ++ lit "/") ∧
    subBasePath (some (lit "/")) (lit "abc") = lit "/abc/" ∧
    subBasePath (some (lit "/links/")) (lit "abc") = lit "/links/abc/" ∧
    HasSuffix (routerBasePath LinksPath) (lit "/") = true := by
  have hslash : lit "/" = [47] := by decide
  refine ⟨by simp [subBasePath], by simp [subBasePath], ?_, by decide, by decide, ?_⟩
  · obtain ⟨d, hd, hall, hlast⟩ := trimRightWhile_spec (fun c => (lit "/").contains c) b
    have hrep := all_eq_replicate 47 d (by rw [← hslash]; exact hall)
    refine ⟨TrimRight b (lit "/"), d.length, ?_, ?_, ?_⟩
    · rw [← hrep]
      exact hd
    · rw [hslash]
      cases hsuf : HasSuffix (TrimRight b [47]) [47] with
      | false => rfl
      | true =>
        have h1 := (HasSuffix_singleton _ _).mp hsuf
        have h2 := hlast 47 (by rw [hslash]; exact h1)
        simp [hslash] at h2
    · unfold subBasePath
      by_cases hb : b = lit "/"
      · subst hb
        have htrim : TrimRight (lit "/") (lit "/") = [] := by decide
        simp [htrim]
      · have hbf : (b == lit "/") = false := by simpa using hb
        simp only [hbf, Bool.false_eq_true, if_false]
  · unfold routerBasePath
    by_cases hc : (LinksPath != lit "/" && !HasSuffix LinksPath (lit "/")) = true
    · simp only [hc, if_true]
      rw [hslash, HasSuffix_singleton]
      simp
    · simp only [hc, if_false]
      simp only [Bool.and_eq_true, bne_iff_ne, ne_eq, Bool.not_eq_true', not_and,
        Bool.not_eq_false] at hc
      by_cases h1 : LinksPath = lit "/"
      · subst h1
        decide
      · exact hc h1

end Sub
